import Mathlib

/-!
Verification of the request/chat lifecycle coordinator of the 278project app.

The source file `src/services/chatService.ts` contains two concatenated
variants of the `ChatService` class: the first variant occupies lines 1-818,
the second variant lines 818-1861.  Definitions below carry the line numbers
of the source code they embed.  Functions that are textually identical in
both variants are embedded once; functions that differ are embedded twice,
the first-variant copy carrying a `V1` suffix.

The Firestore document store is embedded as a state `St` of typed document
collections together with a logical clock, a fresh-id counter and a fault
schedule.  Every Firestore network operation (`getDoc`, `getDocs`, `setDoc`,
`updateDoc`, `addDoc`, `deleteDoc`) consumes one entry of the fault schedule
and throws when that entry is `true`; an empty schedule means no operation
ever fails.  `try/catch` blocks of the source become `M.tryCatch`, and a
thrown exception is the `none` outcome of the monad `M` (state changes made
before the throw persist, as in the JavaScript original).
-/

set_option autoImplicit false

universe u

/-- status ∈ pending | accepted | declined (chatService.ts line 34 / 851). -/
inductive ReqStatus where
  | pending
  | accepted
  | declined
deriving DecidableEq

/-- request type, join_project | start_dm (line 35; the second variant only ever
uses join_project, line 852). -/
inductive ReqType where
  | join_project
  | start_dm
deriving DecidableEq

/-- member role, owner | admin | member (line 57 / 908). -/
inductive Role where
  | owner
  | admin
  | member
deriving DecidableEq

/-- group-chat message type, text | image | file (line 68 / 919). -/
inductive GMsgType where
  | text
  | image
  | file
deriving DecidableEq

/-- request-DM message type, text | system (line 889). -/
inductive DMsgType where
  | text
  | system
deriving DecidableEq

/-- `ProjectRequest` (lines 24-38 and 841-856).  Timestamps are modelled by
the logical clock `Nat`.  `hasDM` is the optional flag of the second variant. -/
structure ProjectRequest where
  fromUserId : String
  fromUserName : String
  fromUserEmail : String
  toUserId : String
  projectId : Option String
  projectName : String
  message : Option String
  status : ReqStatus
  type : ReqType
  createdAt : Nat
  updatedAt : Nat
  hasDM : Option Bool
deriving DecidableEq

/-- `FirebaseChatMember` (lines 52-60 / 903-911). -/
structure ChatMember where
  userId : String
  displayName : String
  email : String
  joinedAt : Nat
  role : Role
  lastReadMessageId : Option String
  lastReadAt : Option Nat
deriving DecidableEq

/-- the `lastMessage` summary of a chat or DM (lines 81-86 / 874-879). -/
structure LastMessage where
  text : String
  senderId : String
  senderName : String
  timestamp : Nat
deriving DecidableEq

/-- group-chat settings (lines 88-91). -/
structure ChatSettings where
  allowInvites : Bool
  isPublic : Bool
deriving DecidableEq

/-- `FirebaseGroupChat` (lines 73-92 / 924-943).  The `members` map is a list
of key/value entries; a value `none` is a Firestore `null` field, whose key is
still present in the map (this matters for removeUserFromGroupChat). -/
structure FirebaseGroupChat where
  projectName : String
  description : Option String
  memberIds : List String
  members : List (String × Option ChatMember)
  createdAt : Nat
  updatedAt : Nat
  lastMessage : Option LastMessage
  isActive : Bool
  settings : ChatSettings
deriving DecidableEq

/-- `FirebaseChatMessage` (lines 62-71 / 913-922). -/
structure FirebaseChatMessage where
  senderId : String
  senderName : String
  text : String
  timestamp : Nat
  type : GMsgType
  edited : Bool
  editedAt : Option Nat
deriving DecidableEq

/-- one entry of `participantDetails` (lines 863-867). -/
structure DMParticipant where
  userId : String
  displayName : String
  email : String
deriving DecidableEq

/-- `projectContext` of a request DM (lines 868-871). -/
structure ProjectContext where
  projectId : String
  projectName : String
deriving DecidableEq

/-- `RequestDM` (lines 859-881). -/
structure RequestDM where
  requestId : String
  participants : List String
  participantDetails : List (String × DMParticipant)
  projectContext : ProjectContext
  createdAt : Nat
  updatedAt : Nat
  lastMessage : Option LastMessage
  isActive : Bool
deriving DecidableEq

/-- `RequestDMMessage` (lines 883-890). -/
structure RequestDMMessage where
  senderId : String
  senderName : String
  text : String
  timestamp : Nat
  type : DMsgType
deriving DecidableEq

/-- a document of the `users` collection, as read by getProjectOwnerDetails
(lines 429-435 / 1732-1738); fields may be absent or empty strings. -/
structure UserDoc where
  displayName : Option String
  username : Option String
  email : Option String
deriving DecidableEq

/-- a document of the `posts` collection, as read by getProjectOwnerDetails
(lines 438-453 / 1741-1756). -/
structure PostDoc where
  uid : String
  title : String
  username : Option String
deriving DecidableEq

/-- a stored document: server id plus data. -/
structure Doc (α : Type u) where
  id : String
  data : α
deriving DecidableEq

/-- a document of a subcollection `parentCollection/{parent}/messages/{id}`. -/
structure SubDoc (α : Type u) where
  parent : String
  id : String
  data : α
deriving DecidableEq

/-- the Firestore database state: one list per collection used by the
claims, a logical clock `now` for `Timestamp.now()`, the fresh-id counter,
and the fault schedule for injected store failures. -/
structure St where
  requests : List (Doc ProjectRequest)
  groupChats : List (Doc FirebaseGroupChat)
  groupMsgs : List (SubDoc FirebaseChatMessage)
  requestDMs : List (Doc RequestDM)
  dmMsgs : List (SubDoc RequestDMMessage)
  users : List (Doc UserDoc)
  posts : List (Doc PostDoc)
  now : Nat
  nextId : Nat
  faults : List Bool
deriving DecidableEq

/-- the effect monad: an async computation over the store; `none` is a thrown
exception (the state at the throw point is kept, as JavaScript does). -/
def M (α : Type) : Type := St → Option α × St

def M.pure {α : Type} (a : α) : M α := fun s => (some a, s)

def M.bind {α β : Type} (x : M α) (f : α → M β) : M β := fun s =>
  match x s with
  | (some a, s1) => f a s1
  | (none, s1) => (none, s1)

instance : Monad M where
  pure := M.pure
  bind := M.bind

/-- a thrown exception. -/
def M.throw {α : Type} : M α := fun s => (none, s)

/-- `try { body } catch { handler }`. -/
def M.tryCatch {α : Type} (body handler : M α) : M α := fun s =>
  match body s with
  | (some a, s1) => (some a, s1)
  | (none, s1) => handler s1

def M.get : M St := fun s => (some s, s)

def M.modify (f : St → St) : M Unit := fun s => (some (), f s)

/-- consume one entry of the fault schedule; `true` means the next store
operation fails. -/
def takeFault : M Bool := fun s =>
  (some (s.faults.headD false), { s with faults := s.faults.tail })

/-- every store operation begins by consulting the fault schedule. -/
def checkFault : M Unit := do
  let b ← takeFault
  if b then M.throw else pure ()

/-- `Timestamp.now()`: reads the logical clock and advances it. -/
def tsNow : M Nat := fun s => (some s.now, { s with now := s.now + 1 })

/-- client-side id generation, `doc(collectionRef)`: no network operation. -/
def freshId : M String := fun s =>
  (some ("doc" ++ toString s.nextId), { s with nextId := s.nextId + 1 })

namespace Doc

/-- read a document by id (first match). -/
def lookup {α : Type u} (l : List (Doc α)) (id : String) : Option α :=
  (l.find? (fun d => d.id == id)).map Doc.data

/-- `setDoc`: overwrite the document with this id, or append it. -/
def setD {α : Type u} (l : List (Doc α)) (id : String) (a : α) : List (Doc α) :=
  if (l.find? (fun d => d.id == id)).isSome then
    l.map (fun d => if d.id == id then ⟨id, a⟩ else d)
  else
    l ++ [⟨id, a⟩]

/-- `updateDoc` payload application: rewrite the data of the document with
this id. -/
def updateD {α : Type u} (l : List (Doc α)) (id : String) (f : α → α) : List (Doc α) :=
  l.map (fun d => if d.id == id then ⟨d.id, f d.data⟩ else d)

end Doc

namespace SubDoc

/-- read a subcollection document by parent and id. -/
def lookup {α : Type u} (l : List (SubDoc α)) (parent id : String) : Option α :=
  (l.find? (fun d => d.parent == parent && d.id == id)).map SubDoc.data

/-- `updateDoc` on a subcollection document. -/
def updateD {α : Type u} (l : List (SubDoc α)) (parent id : String) (f : α → α) :
    List (SubDoc α) :=
  l.map (fun d => if d.parent == parent && d.id == id then ⟨d.parent, d.id, f d.data⟩ else d)

end SubDoc

/-! ### Store primitives

One definition per (Firestore operation, collection) pair used by the
embedded service methods.  `updateDoc` throws when the target document does
not exist; `deleteDoc` does not. -/

def getDocRequest (id : String) : M (Option ProjectRequest) := do
  checkFault
  let s ← M.get
  pure (Doc.lookup s.requests id)

def updateDocRequest (id : String) (f : ProjectRequest → ProjectRequest) : M Unit := do
  checkFault
  let s ← M.get
  if (Doc.lookup s.requests id).isSome then
    M.modify (fun t => { t with requests := Doc.updateD t.requests id f })
  else
    M.throw

def addDocRequest (r : ProjectRequest) : M String := do
  checkFault
  let id ← freshId
  M.modify (fun t => { t with requests := t.requests ++ [⟨id, r⟩] })
  pure id

def queryRequests (p : ProjectRequest → Bool) : M (List (Doc ProjectRequest)) := do
  checkFault
  let s ← M.get
  pure (s.requests.filter (fun d => p d.data))

def getDocChat (id : String) : M (Option FirebaseGroupChat) := do
  checkFault
  let s ← M.get
  pure (Doc.lookup s.groupChats id)

def updateDocChat (id : String) (f : FirebaseGroupChat → FirebaseGroupChat) : M Unit := do
  checkFault
  let s ← M.get
  if (Doc.lookup s.groupChats id).isSome then
    M.modify (fun t => { t with groupChats := Doc.updateD t.groupChats id f })
  else
    M.throw

def setDocChat (id : String) (c : FirebaseGroupChat) : M Unit := do
  checkFault
  M.modify (fun t => { t with groupChats := Doc.setD t.groupChats id c })

def queryChats (p : FirebaseGroupChat → Bool) : M (List (Doc FirebaseGroupChat)) := do
  checkFault
  let s ← M.get
  pure (s.groupChats.filter (fun d => p d.data))

def updateDocDM (id : String) (f : RequestDM → RequestDM) : M Unit := do
  checkFault
  let s ← M.get
  if (Doc.lookup s.requestDMs id).isSome then
    M.modify (fun t => { t with requestDMs := Doc.updateD t.requestDMs id f })
  else
    M.throw

def setDocDM (id : String) (d : RequestDM) : M Unit := do
  checkFault
  M.modify (fun t => { t with requestDMs := Doc.setD t.requestDMs id d })

def queryDMs (p : RequestDM → Bool) : M (List (Doc RequestDM)) := do
  checkFault
  let s ← M.get
  pure (s.requestDMs.filter (fun d => p d.data))

def getDocUser (id : String) : M (Option UserDoc) := do
  checkFault
  let s ← M.get
  pure (Doc.lookup s.users id)

def queryPosts (p : PostDoc → Bool) : M (List (Doc PostDoc)) := do
  checkFault
  let s ← M.get
  pure (s.posts.filter (fun d => p d.data))

def getDocGroupMsg (chatId id : String) : M (Option FirebaseChatMessage) := do
  checkFault
  let s ← M.get
  pure (SubDoc.lookup s.groupMsgs chatId id)

def addDocGroupMsg (chatId : String) (m : FirebaseChatMessage) : M String := do
  checkFault
  let id ← freshId
  M.modify (fun t => { t with groupMsgs := t.groupMsgs ++ [⟨chatId, id, m⟩] })
  pure id

def updateDocGroupMsg (chatId id : String)
    (f : FirebaseChatMessage → FirebaseChatMessage) : M Unit := do
  checkFault
  let s ← M.get
  if (SubDoc.lookup s.groupMsgs chatId id).isSome then
    M.modify (fun t => { t with groupMsgs := SubDoc.updateD t.groupMsgs chatId id f })
  else
    M.throw

def deleteDocGroupMsg (chatId id : String) : M Unit := do
  checkFault
  M.modify (fun t =>
    { t with groupMsgs := t.groupMsgs.filter (fun d => !(d.parent == chatId && d.id == id)) })

def queryGroupMsgs (chatId : String) (p : FirebaseChatMessage → Bool) :
    M (List (SubDoc FirebaseChatMessage)) := do
  checkFault
  let s ← M.get
  pure ((s.groupMsgs.filter (fun d => d.parent == chatId)).filter (fun d => p d.data))

def addDocDMMsg (dmId : String) (m : RequestDMMessage) : M String := do
  checkFault
  let id ← freshId
  M.modify (fun t => { t with dmMsgs := t.dmMsgs ++ [⟨dmId, id, m⟩] })
  pure id

/-! ### JavaScript value helpers -/

/-- JavaScript `a || b` for a possibly-absent string field: `undefined` and
the empty string are falsy. -/
def jsOr (a : Option String) (b : String) : String :=
  match a with
  | some v => if v = "" then b else v
  | none => b

/-- Firestore `arrayUnion(x)`: append `x` unless already present. -/
def arrayUnion (l : List String) (x : String) : List String :=
  if l.contains x then l else l ++ [x]

/-- Firestore `arrayRemove(x)`: remove every occurrence of `x`. -/
def arrayRemove (l : List String) (x : String) : List String :=
  l.filter (fun y => y != x)

/-- write a key of a Firestore map field through a dotted path
`members.${userId}`: overwrites the entry if the key exists, otherwise
creates it.  Writing `null` (`none`) keeps the key with a null value; it does
not delete the key. -/
def mapSet (m : List (String × Option ChatMember)) (k : String) (v : Option ChatMember) :
    List (String × Option ChatMember) :=
  if (m.find? (fun e => e.1 == k)).isSome then
    m.map (fun e => if e.1 == k then (k, v) else e)
  else
    m ++ [(k, v)]

/-- read a key of the members map: distinguishes an absent key (`none`) from
a key with a null value (`some none`). -/
def mapGet (m : List (String × Option ChatMember)) (k : String) : Option (Option ChatMember) :=
  (m.find? (fun e => e.1 == k)).map Prod.snd

/-- JavaScript `[a, b].sort()` on two strings. -/
def sortPair (a b : String) : List String :=
  if a ≤ b then [a, b] else [b, a]

/-! ### ChatService methods

The embedded methods.  Those that are textually identical in the two source
variants are defined once. -/

/-- `ChatService.createGroupChat` (lines 177-217, identical at 1023-1063). -/
def createGroupChat (projectName description creatorId creatorName creatorEmail : String) :
    M (Option String) :=
  M.tryCatch (do
    let newChatId ← freshId
    let now ← tsNow
    let newChat : FirebaseGroupChat := {
      projectName := projectName
      description := some description
      memberIds := [creatorId]
      members := [(creatorId, some {
        userId := creatorId
        displayName := creatorName
        email := creatorEmail
        joinedAt := now
        role := Role.owner
        lastReadMessageId := none
        lastReadAt := none })]
      createdAt := now
      updatedAt := now
      lastMessage := none
      isActive := true
      settings := { allowInvites := true, isPublic := false } }
    setDocChat newChatId newChat
    pure (some newChatId))
    (pure none)

/-- `ChatService.addUserToGroupChat` (lines 485-512, identical at 1791-1818). -/
def addUserToGroupChat (chatId userId userName userEmail : String) : M Bool :=
  M.tryCatch (do
    let j ← tsNow
    let memberData : ChatMember := {
      userId := userId
      displayName := userName
      email := userEmail
      joinedAt := j
      role := Role.member
      lastReadMessageId := none
      lastReadAt := none }
    let u ← tsNow
    updateDocChat chatId (fun c => { c with
      members := mapSet c.members userId (some memberData)
      memberIds := arrayUnion c.memberIds userId
      updatedAt := u })
    pure true)
    (pure false)

/-- `ChatService.removeUserFromGroupChat` (lines 515-528, first variant only).
The source writes `members.${userId}: null`, which keeps the key in the map
with a null value, and `arrayRemove(userId)` on the id array. -/
def removeUserFromGroupChat (chatId userId : String) : M Bool :=
  M.tryCatch (do
    let u ← tsNow
    updateDocChat chatId (fun c => { c with
      members := mapSet c.members userId none
      memberIds := arrayRemove c.memberIds userId
      updatedAt := u })
    pure true)
    (pure false)

/-- `ChatService.getGroupChatByProjectName` (lines 531-551, identical at
1821-1841): first active chat with this project name, `limit(1)`. -/
def getGroupChatByProjectName (projectName : String) : M (Option (Doc FirebaseGroupChat)) :=
  M.tryCatch (do
    let docs ← queryChats (fun c => c.projectName == projectName && c.isActive)
    pure docs.head?)
    (pure none)

/-- details returned by getProjectOwnerDetails. -/
structure OwnerDetails where
  displayName : String
  email : String
deriving DecidableEq

/-- `ChatService.getProjectOwnerDetails` (lines 420-467, identical at
1723-1769): users collection first, then the posts collection, then the
constant fallback; the catch handler also returns the fallback. -/
def getProjectOwnerDetails (ownerId projectName : String) : M (Option OwnerDetails) :=
  M.tryCatch (do
    let userDoc ← getDocUser ownerId
    match userDoc with
    | some userData =>
        pure (some {
          displayName := jsOr userData.displayName (jsOr userData.username "Anonymous")
          email := jsOr userData.email "" })
    | none => do
        let posts ← queryPosts (fun p => p.uid == ownerId && p.title == projectName)
        match posts.head? with
        | some postDoc =>
            pure (some { displayName := jsOr postDoc.data.username "Anonymous", email := "" })
        | none =>
            pure (some { displayName := "Project Owner", email := "" }))
    (pure (some { displayName := "Project Owner", email := "" }))

/-- `ChatService.isUserGroupChatAdmin` (lines 554-569, first variant).  A
missing chat, a missing member entry or a null member entry are all falsy. -/
def isUserGroupChatAdmin (chatId userId : String) : M Bool :=
  M.tryCatch (do
    let chatDoc ← getDocChat chatId
    match chatDoc with
    | none => pure false
    | some chatData =>
        match mapGet chatData.members userId with
        | some (some userMember) =>
            pure (userMember.role == Role.owner || userMember.role == Role.admin)
        | _ => pure false)
    (pure false)

/-- `ChatService.getRequestDMByRequestId` (lines 1290-1310): first active DM
with this request id, `limit(1)`. -/
def getRequestDMByRequestId (requestId : String) : M (Option (Doc RequestDM)) :=
  M.tryCatch (do
    let docs ← queryDMs (fun d => d.requestId == requestId && d.isActive)
    pure docs.head?)
    (pure none)

/-- `ChatService.sendRequestDMMessage` (lines 1381-1422): appends the message,
then updates the DM document's lastMessage summary and updatedAt unless the
message is system-typed. -/
def sendRequestDMMessage (dmId senderId senderName text : String) (type : DMsgType) : M Bool :=
  M.tryCatch (do
    let now ← tsNow
    let newMessage : RequestDMMessage := {
      senderId := senderId
      senderName := senderName
      text := text
      timestamp := now
      type := type }
    let _ ← addDocDMMsg dmId newMessage
    if type != DMsgType.system then
      updateDocDM dmId (fun dm => { dm with
        lastMessage := some {
          text := text
          senderId := senderId
          senderName := senderName
          timestamp := now }
        updatedAt := now })
    pure true)
    (pure false)

/-- `ChatService.createRequestDM` (lines 1216-1287): idempotent per request
id; otherwise creates the DM, marks the parent request `hasDM`, and seeds the
system opener message. -/
def createRequestDM (requestId requesterId requesterName requesterEmail
    ownerId ownerName ownerEmail projectId projectName : String) : M (Option String) :=
  M.tryCatch (do
    let existingDM ← getRequestDMByRequestId requestId
    match existingDM with
    | some d => pure (some d.id)
    | none => do
        let newDMId ← freshId
        let now ← tsNow
        let participants := sortPair requesterId ownerId
        let newRequestDM : RequestDM := {
          requestId := requestId
          participants := participants
          participantDetails := [
            (requesterId, {
              userId := requesterId
              displayName := requesterName
              email := requesterEmail }),
            (ownerId, {
              userId := ownerId
              displayName := ownerName
              email := ownerEmail })]
          projectContext := { projectId := projectId, projectName := projectName }
          createdAt := now
          updatedAt := now
          lastMessage := none
          isActive := true }
        setDocDM newDMId newRequestDM
        updateDocRequest requestId (fun r => { r with hasDM := some true, updatedAt := now })
        let _ ← sendRequestDMMessage newDMId "system" "System"
          ("This is a temporary chat about the request to join \"" ++ projectName ++
            "\". This conversation will be closed when the request is resolved.")
          DMsgType.system
        pure (some newDMId))
    (pure none)

/-- `ChatService.getUserRequestDMs` (lines 1330-1352): the active DMs a user
participates in.  The source orders by updatedAt descending; the ordering is
irrelevant to the claims and is not modelled, only the membership of the
result set. -/
def getUserRequestDMs (userId : String) : M (List (Doc RequestDM)) :=
  M.tryCatch (do
    let docs ← queryDMs (fun d => d.participants.contains userId && d.isActive)
    pure docs)
    (pure [])

/-- `ChatService.closeRequestDM` (lines 1458-1476): look up the active DM of
the request; succeed trivially when none, otherwise flip isActive off. -/
def closeRequestDM (requestId : String) : M Bool :=
  M.tryCatch (do
    let requestDM ← getRequestDMByRequestId requestId
    match requestDM with
    | none => pure true
    | some d => do
        let u ← tsNow
        updateDocDM d.id (fun dm => { dm with isActive := false, updatedAt := u })
        pure true)
    (pure false)

/-- `ChatService.getExistingRequest`, second variant (lines 1524-1550): the
first pending join request matching the (requester, recipient, project)
triple. -/
def getExistingRequest (fromUserId toUserId projectName : String) :
    M (Option (Doc ProjectRequest)) :=
  M.tryCatch (do
    let docs ← queryRequests (fun r =>
      r.fromUserId == fromUserId && r.toUserId == toUserId &&
      r.projectName == projectName && r.type == ReqType.join_project &&
      r.status == ReqStatus.pending)
    pure docs.head?)
    (pure none)

/-- `ChatService.createProjectRequest`, second variant (lines 1481-1521):
dedupe against an existing pending request, otherwise insert a pending one. -/
def createProjectRequest (fromUserId fromUserName fromUserEmail toUserId projectName : String)
    (message : Option String) (projectId : Option String) : M (Option String) :=
  M.tryCatch (do
    let existingRequest ← getExistingRequest fromUserId toUserId projectName
    match existingRequest with
    | some d => pure (some d.id)
    | none => do
        let now ← tsNow
        let newRequest : ProjectRequest := {
          fromUserId := fromUserId
          fromUserName := fromUserName
          fromUserEmail := fromUserEmail
          toUserId := toUserId
          projectId := projectId
          projectName := projectName
          message := message
          status := ReqStatus.pending
          type := ReqType.join_project
          createdAt := now
          updatedAt := now
          hasDM := none }
        let id ← addDocRequest newRequest
        pure (some id))
    (pure none)

/-- the find-or-create-group-chat block of acceptProjectRequest, identical in
both variants (lines 367-392 and 1675-1696): look the chat up by project
name; when absent, fetch the owner's details, create the chat owned by the
recipient, and re-fetch it. -/
def findOrCreateGroupChat (request : ProjectRequest) : M (Option (Doc FirebaseGroupChat)) := do
  let gc ← getGroupChatByProjectName request.projectName
  match gc with
  | some g => pure (some g)
  | none => do
      let projectOwner ← getProjectOwnerDetails request.toUserId request.projectName
      match projectOwner with
      | some po => do
          let groupChatId ← createGroupChat request.projectName
            ("Group chat for " ++ request.projectName) request.toUserId
            po.displayName po.email
          match groupChatId with
          | some _ => getGroupChatByProjectName request.projectName
          | none => pure none
      | none => pure none

/-- the group-chat admission step of the second acceptProjectRequest variant
(lines 1674-1713): find or create the project chat and add the requester;
either failure makes the whole call return false. -/
def acceptChatStep (request : ProjectRequest) : M Bool := do
  let groupChat ← findOrCreateGroupChat request
  match groupChat with
  | some g => do
      let success ← addUserToGroupChat g.id
        request.fromUserId request.fromUserName request.fromUserEmail
      if success then pure true else pure false
  | none => pure false

/-- `ChatService.acceptProjectRequest`, second variant (lines 1653-1720):
load the request (NotFound gives false), set status accepted, close any
request DM, find or create the project group chat, add the requester; a
failure in the chat steps returns false without reverting the status. -/
def acceptProjectRequest (requestId : String) : M Bool :=
  M.tryCatch (do
    let requestDoc ← getDocRequest requestId
    match requestDoc with
    | none => pure false
    | some request => do
        let u ← tsNow
        updateDocRequest requestId
          (fun r => { r with status := ReqStatus.accepted, updatedAt := u })
        let _ ← closeRequestDM requestId
        acceptChatStep request)
    (pure false)

/-- the best-effort group-chat admission step of the first
acceptProjectRequest variant (lines 366-410): find or create the project
chat and add the requester; failures are only logged and the step always
reports true. -/
def acceptChatStepV1 (request : ProjectRequest) : M Bool := do
  let groupChat ← findOrCreateGroupChat request
  match groupChat with
  | some g => do
      let _ ← addUserToGroupChat g.id
        request.fromUserId request.fromUserName request.fromUserEmail
      pure true
  | none => pure true

/-- `ChatService.acceptProjectRequest`, first variant (lines 347-417): same
status update, no DM closing; the chat steps run only for join_project
requests and are best-effort — their failure is logged and the method still
returns true. -/
def acceptProjectRequestV1 (requestId : String) : M Bool :=
  M.tryCatch (do
    let requestDoc ← getDocRequest requestId
    match requestDoc with
    | none => pure false
    | some request => do
        let u ← tsNow
        updateDocRequest requestId
          (fun r => { r with status := ReqStatus.accepted, updatedAt := u })
        if request.type == ReqType.join_project then
          acceptChatStepV1 request
        else pure true)
    (pure false)

/-- `ChatService.declineProjectRequest`, second variant (lines 1772-1788):
set status declined (throws NotFound when the request is absent), then close
any associated request DM. -/
def declineProjectRequest (requestId : String) : M Bool :=
  M.tryCatch (do
    let u ← tsNow
    updateDocRequest requestId
      (fun r => { r with status := ReqStatus.declined, updatedAt := u })
    let _ ← closeRequestDM requestId
    pure true)
    (pure false)

/-- `ChatService.getUnreadMessageCount`, second variant (lines 1000-1020):
count of all messages when the user has no lastReadMessageId, otherwise the
hard-coded 0 of the unimplemented TODO branch. -/
def getUnreadMessageCount (chatId userId : String) (lastReadMessageId : Option String) :
    M Nat :=
  M.tryCatch (do
    match lastReadMessageId with
    | none => do
        let msgs ← queryGroupMsgs chatId (fun _ => true)
        pure msgs.length
    | some _ => pure 0)
    (pure 0)

/-- `ChatService.getUnreadMessageCount`, first variant (lines 147-174): the
cursor branch counts the messages with timestamp after `Timestamp.now()`
instead of after the last-read time. -/
def getUnreadMessageCountV1 (chatId userId : String) (lastReadMessageId : Option String) :
    M Nat :=
  M.tryCatch (do
    match lastReadMessageId with
    | none => do
        let msgs ← queryGroupMsgs chatId (fun _ => true)
        pure msgs.length
    | some _ => do
        let now ← tsNow
        let msgs ← queryGroupMsgs chatId (fun m => decide (now < m.timestamp))
        pure msgs.length)
    (pure 0)

/-- `ChatService.deleteMessage` (lines 754-783, first variant): sender or
chat owner/admin only; the authorization check precedes the delete. -/
def deleteMessage (chatId messageId userId : String) : M Bool :=
  M.tryCatch (do
    let isAdmin ← isUserGroupChatAdmin chatId userId
    let messageDoc ← getDocGroupMsg chatId messageId
    match messageDoc with
    | none => pure false
    | some messageData => do
        let isSender := messageData.senderId == userId
        if !isSender && !isAdmin then
          pure false
        else do
          deleteDocGroupMsg chatId messageId
          pure true)
    (pure false)

/-- `ChatService.editMessage` (lines 786-817, first variant): sender only;
the authorization check precedes the edit. -/
def editMessage (chatId messageId userId newText : String) : M Bool :=
  M.tryCatch (do
    let messageDoc ← getDocGroupMsg chatId messageId
    match messageDoc with
    | none => pure false
    | some messageData =>
        if messageData.senderId != userId then
          pure false
        else do
          let e ← tsNow
          updateDocGroupMsg chatId messageId
            (fun m => { m with text := newText, edited := true, editedAt := some e })
          pure true)
    (pure false)

/-! ### Pure views of the state used by the claim statements -/

/-- the active DMs attached to a request id: the result set of the
getRequestDMByRequestId query. -/
def activeDMsFor (s : St) (requestId : String) : List (Doc RequestDM) :=
  s.requestDMs.filter (fun d => d.data.requestId == requestId && d.data.isActive)

/-- the pending join requests matching a (requester, recipient, project)
triple: the result set of the getExistingRequest query. -/
def pendingRequestsFor (s : St) (fromUserId toUserId projectName : String) :
    List (Doc ProjectRequest) :=
  s.requests.filter (fun d =>
    d.data.fromUserId == fromUserId && d.data.toUserId == toUserId &&
    d.data.projectName == projectName && d.data.type == ReqType.join_project &&
    d.data.status == ReqStatus.pending)

/-- the pure content of isUserGroupChatAdmin: the user holds role owner or
admin in the chat. -/
def adminRole (s : St) (chatId userId : String) : Bool :=
  match Doc.lookup s.groupChats chatId with
  | none => false
  | some chatData =>
      match mapGet chatData.members userId with
      | some (some userMember) =>
          userMember.role == Role.owner || userMember.role == Role.admin
      | _ => false

/-- the key set of a chat's member map. -/
def memberKeys (c : FirebaseGroupChat) : List String :=
  c.members.map Prod.fst

/-- Modelled from the spec (section 4.4), for comparison with the code:
"unread count for user U = number of messages with timestamp after U's
lastReadAt (or all messages if U has never read any)". -/
def specUnreadCount (s : St) (chatId : String) (lastReadAt : Option Nat) : Nat :=
  match lastReadAt with
  | none => (s.groupMsgs.filter (fun d => d.parent == chatId)).length
  | some t =>
      ((s.groupMsgs.filter (fun d => d.parent == chatId)).filter
        (fun d => decide (t < d.data.timestamp))).length

/-! ### Run equations for the monad -/

theorem run_bind {α β : Type} (x : M α) (f : α → M β) (s : St) :
    (x >>= f) s = match x s with
      | (some a, s1) => f a s1
      | (none, s1) => (none, s1) := rfl

theorem run_pure {α : Type} (a : α) (s : St) : (pure a : M α) s = (some a, s) := rfl

theorem run_tryCatch {α : Type} (body handler : M α) (s : St) :
    M.tryCatch body handler s = match body s with
      | (some a, s1) => (some a, s1)
      | (none, s1) => handler s1 := rfl

theorem run_throw {α : Type} (s : St) : (M.throw : M α) s = (none, s) := rfl

theorem run_get (s : St) : M.get s = (some s, s) := rfl

theorem run_modify (f : St → St) (s : St) : M.modify f s = (some (), f s) := rfl

/-- with an exhausted fault schedule, popping it is the identity. -/
theorem pop_nil {s : St} (h : s.faults = []) : { s with faults := s.faults.tail } = s := by
  cases s with
  | mk r g gm dm dmm us ps n ni fa =>
      simp only at h
      subst h
      rfl

theorem takeFault_nil {s : St} (h : s.faults = []) : takeFault s = (some false, s) := by
  unfold takeFault
  rw [pop_nil h, h]
  rfl

theorem checkFault_nil {s : St} (h : s.faults = []) : checkFault s = (some (), s) := by
  unfold checkFault
  rw [run_bind, takeFault_nil h]
  rfl

theorem getDocRequest_nil (id : String) {s : St} (h : s.faults = []) :
    getDocRequest id s = (some (Doc.lookup s.requests id), s) := by
  unfold getDocRequest
  rw [run_bind, checkFault_nil h]
  rfl

theorem updateDocRequest_nil (id : String) (f : ProjectRequest → ProjectRequest) {s : St}
    (h : s.faults = []) :
    updateDocRequest id f s =
      if (Doc.lookup s.requests id).isSome then
        (some (), { s with requests := Doc.updateD s.requests id f })
      else (none, s) := by
  unfold updateDocRequest
  simp only [run_bind, checkFault_nil h, run_get, run_modify, run_throw]
  split <;> simp_all [run_modify, run_throw]

theorem run_tsNow (s : St) : tsNow s = (some s.now, { s with now := s.now + 1 }) := rfl

theorem run_freshId (s : St) :
    freshId s = (some ("doc" ++ toString s.nextId), { s with nextId := s.nextId + 1 }) := rfl

theorem addDocRequest_nil (r : ProjectRequest) {s : St} (h : s.faults = []) :
    addDocRequest r s = (some ("doc" ++ toString s.nextId),
      { s with requests := s.requests ++ [⟨"doc" ++ toString s.nextId, r⟩],
               nextId := s.nextId + 1 }) := by
  unfold addDocRequest
  rw [run_bind, checkFault_nil h]
  rfl

theorem queryRequests_nil (p : ProjectRequest → Bool) {s : St} (h : s.faults = []) :
    queryRequests p s = (some (s.requests.filter (fun d => p d.data)), s) := by
  unfold queryRequests
  rw [run_bind, checkFault_nil h]
  rfl

theorem getDocChat_nil (id : String) {s : St} (h : s.faults = []) :
    getDocChat id s = (some (Doc.lookup s.groupChats id), s) := by
  unfold getDocChat
  rw [run_bind, checkFault_nil h]
  rfl

theorem updateDocChat_nil (id : String) (f : FirebaseGroupChat → FirebaseGroupChat) {s : St}
    (h : s.faults = []) :
    updateDocChat id f s =
      if (Doc.lookup s.groupChats id).isSome then
        (some (), { s with groupChats := Doc.updateD s.groupChats id f })
      else (none, s) := by
  unfold updateDocChat
  simp only [run_bind, checkFault_nil h, run_get, run_modify, run_throw]
  split <;> simp_all [run_modify, run_throw]

theorem setDocChat_nil (id : String) (c : FirebaseGroupChat) {s : St} (h : s.faults = []) :
    setDocChat id c s = (some (), { s with groupChats := Doc.setD s.groupChats id c }) := by
  unfold setDocChat
  rw [run_bind, checkFault_nil h]
  rfl

theorem queryChats_nil (p : FirebaseGroupChat → Bool) {s : St} (h : s.faults = []) :
    queryChats p s = (some (s.groupChats.filter (fun d => p d.data)), s) := by
  unfold queryChats
  rw [run_bind, checkFault_nil h]
  rfl

theorem updateDocDM_nil (id : String) (f : RequestDM → RequestDM) {s : St}
    (h : s.faults = []) :
    updateDocDM id f s =
      if (Doc.lookup s.requestDMs id).isSome then
        (some (), { s with requestDMs := Doc.updateD s.requestDMs id f })
      else (none, s) := by
  unfold updateDocDM
  simp only [run_bind, checkFault_nil h, run_get, run_modify, run_throw]
  split <;> simp_all [run_modify, run_throw]

theorem setDocDM_nil (id : String) (d : RequestDM) {s : St} (h : s.faults = []) :
    setDocDM id d s = (some (), { s with requestDMs := Doc.setD s.requestDMs id d }) := by
  unfold setDocDM
  rw [run_bind, checkFault_nil h]
  rfl

theorem queryDMs_nil (p : RequestDM → Bool) {s : St} (h : s.faults = []) :
    queryDMs p s = (some (s.requestDMs.filter (fun d => p d.data)), s) := by
  unfold queryDMs
  rw [run_bind, checkFault_nil h]
  rfl

theorem getDocUser_nil (id : String) {s : St} (h : s.faults = []) :
    getDocUser id s = (some (Doc.lookup s.users id), s) := by
  unfold getDocUser
  rw [run_bind, checkFault_nil h]
  rfl

theorem queryPosts_nil (p : PostDoc → Bool) {s : St} (h : s.faults = []) :
    queryPosts p s = (some (s.posts.filter (fun d => p d.data)), s) := by
  unfold queryPosts
  rw [run_bind, checkFault_nil h]
  rfl

theorem getDocGroupMsg_nil (chatId id : String) {s : St} (h : s.faults = []) :
    getDocGroupMsg chatId id s = (some (SubDoc.lookup s.groupMsgs chatId id), s) := by
  unfold getDocGroupMsg
  rw [run_bind, checkFault_nil h]
  rfl

theorem addDocGroupMsg_nil (chatId : String) (m : FirebaseChatMessage) {s : St}
    (h : s.faults = []) :
    addDocGroupMsg chatId m s = (some ("doc" ++ toString s.nextId),
      { s with groupMsgs := s.groupMsgs ++ [⟨chatId, "doc" ++ toString s.nextId, m⟩],
               nextId := s.nextId + 1 }) := by
  unfold addDocGroupMsg
  rw [run_bind, checkFault_nil h]
  rfl

theorem updateDocGroupMsg_nil (chatId id : String)
    (f : FirebaseChatMessage → FirebaseChatMessage) {s : St} (h : s.faults = []) :
    updateDocGroupMsg chatId id f s =
      if (SubDoc.lookup s.groupMsgs chatId id).isSome then
        (some (), { s with groupMsgs := SubDoc.updateD s.groupMsgs chatId id f })
      else (none, s) := by
  unfold updateDocGroupMsg
  simp only [run_bind, checkFault_nil h, run_get, run_modify, run_throw]
  split <;> simp_all [run_modify, run_throw]

theorem deleteDocGroupMsg_nil (chatId id : String) {s : St} (h : s.faults = []) :
    deleteDocGroupMsg chatId id s = (some (),
      { s with groupMsgs :=
          s.groupMsgs.filter (fun d => !(d.parent == chatId && d.id == id)) }) := by
  unfold deleteDocGroupMsg
  rw [run_bind, checkFault_nil h]
  rfl

theorem addDocDMMsg_nil (dmId : String) (m : RequestDMMessage) {s : St} (h : s.faults = []) :
    addDocDMMsg dmId m s = (some ("doc" ++ toString s.nextId),
      { s with dmMsgs := s.dmMsgs ++ [⟨dmId, "doc" ++ toString s.nextId, m⟩],
               nextId := s.nextId + 1 }) := by
  unfold addDocDMMsg
  rw [run_bind, checkFault_nil h]
  rfl

/-! ### Frame preservation and totality combinators

`Preserves m proj` states that running `m` from any state, fault schedule
included, leaves the projection `proj` of the state unchanged.  `AlwaysSome`
states that `m` never ends in a thrown exception (every public service
method does, because its whole body sits in a try/catch). -/

def Preserves {α : Type} {γ : Type u} (m : M α) (proj : St → γ) : Prop :=
  ∀ s, proj (m s).2 = proj s

def AlwaysSome {α : Type} (m : M α) : Prop :=
  ∀ s, ((m s).1).isSome

theorem Preserves.bindM {α β : Type} {γ : Type u} {x : M α} {f : α → M β} {proj : St → γ}
    (hx : Preserves x proj) (hf : ∀ a, Preserves (f a) proj) :
    Preserves (x >>= f) proj := by
  intro s
  rw [run_bind]
  rcases hx2 : x s with ⟨r, s1⟩
  have h1 : proj s1 = proj s := by
    have := hx s
    rw [hx2] at this
    exact this
  cases r with
  | none => simpa using h1
  | some a => simpa using (hf a s1).trans h1

theorem Preserves.tryCatchM {α : Type} {γ : Type u} {b h : M α} {proj : St → γ}
    (hb : Preserves b proj) (hh : Preserves h proj) :
    Preserves (M.tryCatch b h) proj := by
  intro s
  rw [run_tryCatch]
  rcases hb2 : b s with ⟨r, s1⟩
  have h1 : proj s1 = proj s := by
    have := hb s
    rw [hb2] at this
    exact this
  cases r with
  | none => simpa using (hh s1).trans h1
  | some a => simpa using h1

theorem Preserves.pureM {α : Type} {γ : Type u} (a : α) (proj : St → γ) :
    Preserves (pure a : M α) proj := fun _ => rfl

theorem Preserves.throwM {α : Type} {γ : Type u} (proj : St → γ) :
    Preserves (M.throw : M α) proj := fun _ => rfl

theorem Preserves.getM {γ : Type u} (proj : St → γ) : Preserves M.get proj := fun _ => rfl

theorem Preserves.modifyM {γ : Type u} {f : St → St} {proj : St → γ}
    (hf : ∀ s, proj (f s) = proj s) : Preserves (M.modify f) proj := hf

theorem Preserves.iteM {α : Type} {γ : Type u} {c : Prop} [Decidable c] {x y : M α}
    {proj : St → γ} (hx : Preserves x proj) (hy : Preserves y proj) :
    Preserves (if c then x else y) proj := by
  split
  · exact hx
  · exact hy

theorem Preserves.takeFaultM {γ : Type u} {proj : St → γ}
    (hfa : ∀ s, proj { s with faults := s.faults.tail } = proj s) :
    Preserves takeFault proj := hfa

theorem Preserves.checkFaultM {γ : Type u} {proj : St → γ}
    (hfa : ∀ s, proj { s with faults := s.faults.tail } = proj s) :
    Preserves checkFault proj := by
  unfold checkFault
  exact Preserves.bindM (Preserves.takeFaultM hfa)
    (fun b => Preserves.iteM (Preserves.throwM proj) (Preserves.pureM () proj))

theorem Preserves.tsNowM {γ : Type u} {proj : St → γ}
    (hnow : ∀ s, proj { s with now := s.now + 1 } = proj s) :
    Preserves tsNow proj := hnow

theorem Preserves.freshIdM {γ : Type u} {proj : St → γ}
    (hni : ∀ s, proj { s with nextId := s.nextId + 1 } = proj s) :
    Preserves freshId proj := hni

theorem AlwaysSome.bindS {α β : Type} {x : M α} {f : α → M β}
    (hx : AlwaysSome x) (hf : ∀ a, AlwaysSome (f a)) : AlwaysSome (x >>= f) := by
  intro s
  rw [run_bind]
  rcases hx2 : x s with ⟨r, s1⟩
  cases r with
  | none =>
      have := hx s
      rw [hx2] at this
      simp at this
  | some a => simpa using hf a s1

theorem AlwaysSome.tryCatchS {α : Type} {b h : M α} (hh : AlwaysSome h) :
    AlwaysSome (M.tryCatch b h) := by
  intro s
  rw [run_tryCatch]
  rcases hb2 : b s with ⟨r, s1⟩
  cases r with
  | none => simpa using hh s1
  | some a => simp

theorem AlwaysSome.pureS {α : Type} (a : α) : AlwaysSome (pure a : M α) := by
  intro s
  simp [run_pure]

theorem AlwaysSome.iteS {α : Type} {c : Prop} [Decidable c] {x y : M α}
    (hx : AlwaysSome x) (hy : AlwaysSome y) : AlwaysSome (if c then x else y) := by
  split
  · exact hx
  · exact hy

theorem getDocRequest_pres {γ : Type u} (id : String) {proj : St → γ}
    (hfa : ∀ s, proj { s with faults := s.faults.tail } = proj s) :
    Preserves (getDocRequest id) proj := by
  unfold getDocRequest
  exact Preserves.bindM (Preserves.checkFaultM hfa)
    (fun _ => Preserves.bindM (Preserves.getM proj) (fun _ => Preserves.pureM _ proj))

theorem getDocChat_pres {γ : Type u} (id : String) {proj : St → γ}
    (hfa : ∀ s, proj { s with faults := s.faults.tail } = proj s) :
    Preserves (getDocChat id) proj := by
  unfold getDocChat
  exact Preserves.bindM (Preserves.checkFaultM hfa)
    (fun _ => Preserves.bindM (Preserves.getM proj) (fun _ => Preserves.pureM _ proj))

theorem getDocUser_pres {γ : Type u} (id : String) {proj : St → γ}
    (hfa : ∀ s, proj { s with faults := s.faults.tail } = proj s) :
    Preserves (getDocUser id) proj := by
  unfold getDocUser
  exact Preserves.bindM (Preserves.checkFaultM hfa)
    (fun _ => Preserves.bindM (Preserves.getM proj) (fun _ => Preserves.pureM _ proj))

theorem queryChats_pres {γ : Type u} (p : FirebaseGroupChat → Bool) {proj : St → γ}
    (hfa : ∀ s, proj { s with faults := s.faults.tail } = proj s) :
    Preserves (queryChats p) proj := by
  unfold queryChats
  exact Preserves.bindM (Preserves.checkFaultM hfa)
    (fun _ => Preserves.bindM (Preserves.getM proj) (fun _ => Preserves.pureM _ proj))

theorem queryDMs_pres {γ : Type u} (p : RequestDM → Bool) {proj : St → γ}
    (hfa : ∀ s, proj { s with faults := s.faults.tail } = proj s) :
    Preserves (queryDMs p) proj := by
  unfold queryDMs
  exact Preserves.bindM (Preserves.checkFaultM hfa)
    (fun _ => Preserves.bindM (Preserves.getM proj) (fun _ => Preserves.pureM _ proj))

theorem queryPosts_pres {γ : Type u} (p : PostDoc → Bool) {proj : St → γ}
    (hfa : ∀ s, proj { s with faults := s.faults.tail } = proj s) :
    Preserves (queryPosts p) proj := by
  unfold queryPosts
  exact Preserves.bindM (Preserves.checkFaultM hfa)
    (fun _ => Preserves.bindM (Preserves.getM proj) (fun _ => Preserves.pureM _ proj))

theorem updateDocChat_pres {γ : Type u} (id : String)
    (f : FirebaseGroupChat → FirebaseGroupChat) {proj : St → γ}
    (hfa : ∀ s, proj { s with faults := s.faults.tail } = proj s)
    (hch : ∀ s l, proj { s with groupChats := l } = proj s) :
    Preserves (updateDocChat id f) proj := by
  unfold updateDocChat
  exact Preserves.bindM (Preserves.checkFaultM hfa)
    (fun _ => Preserves.bindM (Preserves.getM proj)
      (fun _ => Preserves.iteM
        (Preserves.modifyM (fun t => hch t _)) (Preserves.throwM proj)))

theorem setDocChat_pres {γ : Type u} (id : String) (c : FirebaseGroupChat) {proj : St → γ}
    (hfa : ∀ s, proj { s with faults := s.faults.tail } = proj s)
    (hch : ∀ s l, proj { s with groupChats := l } = proj s) :
    Preserves (setDocChat id c) proj := by
  unfold setDocChat
  exact Preserves.bindM (Preserves.checkFaultM hfa)
    (fun _ => Preserves.modifyM (fun t => hch t _))

theorem updateDocRequest_pres {γ : Type u} (id : String)
    (f : ProjectRequest → ProjectRequest) {proj : St → γ}
    (hfa : ∀ s, proj { s with faults := s.faults.tail } = proj s)
    (hrq : ∀ s l, proj { s with requests := l } = proj s) :
    Preserves (updateDocRequest id f) proj := by
  unfold updateDocRequest
  exact Preserves.bindM (Preserves.checkFaultM hfa)
    (fun _ => Preserves.bindM (Preserves.getM proj)
      (fun _ => Preserves.iteM
        (Preserves.modifyM (fun t => hrq t _)) (Preserves.throwM proj)))

theorem updateDocDM_pres {γ : Type u} (id : String) (f : RequestDM → RequestDM) {proj : St → γ}
    (hfa : ∀ s, proj { s with faults := s.faults.tail } = proj s)
    (hdm : ∀ s l, proj { s with requestDMs := l } = proj s) :
    Preserves (updateDocDM id f) proj := by
  unfold updateDocDM
  exact Preserves.bindM (Preserves.checkFaultM hfa)
    (fun _ => Preserves.bindM (Preserves.getM proj)
      (fun _ => Preserves.iteM
        (Preserves.modifyM (fun t => hdm t _)) (Preserves.throwM proj)))

theorem setDocDM_pres {γ : Type u} (id : String) (d : RequestDM) {proj : St → γ}
    (hfa : ∀ s, proj { s with faults := s.faults.tail } = proj s)
    (hdm : ∀ s l, proj { s with requestDMs := l } = proj s) :
    Preserves (setDocDM id d) proj := by
  unfold setDocDM
  exact Preserves.bindM (Preserves.checkFaultM hfa)
    (fun _ => Preserves.modifyM (fun t => hdm t _))

theorem addDocDMMsg_pres {γ : Type u} (dmId : String) (m : RequestDMMessage) {proj : St → γ}
    (hfa : ∀ s, proj { s with faults := s.faults.tail } = proj s)
    (hni : ∀ s, proj { s with nextId := s.nextId + 1 } = proj s)
    (hdmm : ∀ s l, proj { s with dmMsgs := l } = proj s) :
    Preserves (addDocDMMsg dmId m) proj := by
  unfold addDocDMMsg
  exact Preserves.bindM (Preserves.checkFaultM hfa)
    (fun _ => Preserves.bindM (Preserves.freshIdM hni)
      (fun _ => Preserves.bindM (Preserves.modifyM (fun t => hdmm t _))
        (fun _ => Preserves.pureM _ proj)))

theorem getGroupChatByProjectName_pres {γ : Type u} (pn : String) {proj : St → γ}
    (hfa : ∀ s, proj { s with faults := s.faults.tail } = proj s) :
    Preserves (getGroupChatByProjectName pn) proj := by
  unfold getGroupChatByProjectName
  exact Preserves.tryCatchM
    (Preserves.bindM (queryChats_pres _ hfa) (fun _ => Preserves.pureM _ proj))
    (Preserves.pureM _ proj)

theorem getRequestDMByRequestId_pres {γ : Type u} (rid : String) {proj : St → γ}
    (hfa : ∀ s, proj { s with faults := s.faults.tail } = proj s) :
    Preserves (getRequestDMByRequestId rid) proj := by
  unfold getRequestDMByRequestId
  exact Preserves.tryCatchM
    (Preserves.bindM (queryDMs_pres _ hfa) (fun _ => Preserves.pureM _ proj))
    (Preserves.pureM _ proj)

theorem getProjectOwnerDetails_pres {γ : Type u} (oid pn : String) {proj : St → γ}
    (hfa : ∀ s, proj { s with faults := s.faults.tail } = proj s) :
    Preserves (getProjectOwnerDetails oid pn) proj := by
  unfold getProjectOwnerDetails
  apply Preserves.tryCatchM _ (Preserves.pureM _ _)
  apply Preserves.bindM (getDocUser_pres _ hfa)
  intro a
  cases a with
  | some u => exact Preserves.pureM _ _
  | none =>
      apply Preserves.bindM (queryPosts_pres _ hfa)
      intro ps
      cases ps.head? <;> exact Preserves.pureM _ _

theorem createGroupChat_pres {γ : Type u} (pn desc cid cn ce : String) {proj : St → γ}
    (hfa : ∀ s, proj { s with faults := s.faults.tail } = proj s)
    (hnow : ∀ s, proj { s with now := s.now + 1 } = proj s)
    (hni : ∀ s, proj { s with nextId := s.nextId + 1 } = proj s)
    (hch : ∀ s l, proj { s with groupChats := l } = proj s) :
    Preserves (createGroupChat pn desc cid cn ce) proj := by
  unfold createGroupChat
  apply Preserves.tryCatchM _ (Preserves.pureM _ _)
  apply Preserves.bindM (Preserves.freshIdM hni)
  intro id
  apply Preserves.bindM (Preserves.tsNowM hnow)
  intro now
  exact Preserves.bindM (setDocChat_pres _ _ hfa hch) (fun _ => Preserves.pureM _ _)

theorem addUserToGroupChat_pres {γ : Type u} (cid uid un ue : String) {proj : St → γ}
    (hfa : ∀ s, proj { s with faults := s.faults.tail } = proj s)
    (hnow : ∀ s, proj { s with now := s.now + 1 } = proj s)
    (hch : ∀ s l, proj { s with groupChats := l } = proj s) :
    Preserves (addUserToGroupChat cid uid un ue) proj := by
  unfold addUserToGroupChat
  apply Preserves.tryCatchM _ (Preserves.pureM _ _)
  apply Preserves.bindM (Preserves.tsNowM hnow)
  intro j
  apply Preserves.bindM (Preserves.tsNowM hnow)
  intro u
  exact Preserves.bindM (updateDocChat_pres _ _ hfa hch) (fun _ => Preserves.pureM _ _)

theorem findOrCreateGroupChat_pres {γ : Type u} (rq : ProjectRequest) {proj : St → γ}
    (hfa : ∀ s, proj { s with faults := s.faults.tail } = proj s)
    (hnow : ∀ s, proj { s with now := s.now + 1 } = proj s)
    (hni : ∀ s, proj { s with nextId := s.nextId + 1 } = proj s)
    (hch : ∀ s l, proj { s with groupChats := l } = proj s) :
    Preserves (findOrCreateGroupChat rq) proj := by
  unfold findOrCreateGroupChat
  apply Preserves.bindM (getGroupChatByProjectName_pres _ hfa)
  intro gc
  cases gc with
  | some g => exact Preserves.pureM _ _
  | none =>
      apply Preserves.bindM (getProjectOwnerDetails_pres _ _ hfa)
      intro po
      cases po with
      | some p =>
          apply Preserves.bindM (createGroupChat_pres _ _ _ _ _ hfa hnow hni hch)
          intro gid
          cases gid with
          | some g2 => exact getGroupChatByProjectName_pres _ hfa
          | none => exact Preserves.pureM _ _
      | none => exact Preserves.pureM _ _

theorem closeRequestDM_pres {γ : Type u} (rid : String) {proj : St → γ}
    (hfa : ∀ s, proj { s with faults := s.faults.tail } = proj s)
    (hnow : ∀ s, proj { s with now := s.now + 1 } = proj s)
    (hdm : ∀ s l, proj { s with requestDMs := l } = proj s) :
    Preserves (closeRequestDM rid) proj := by
  unfold closeRequestDM
  apply Preserves.tryCatchM _ (Preserves.pureM _ _)
  apply Preserves.bindM (getRequestDMByRequestId_pres _ hfa)
  intro r
  cases r with
  | none => exact Preserves.pureM _ _
  | some d =>
      apply Preserves.bindM (Preserves.tsNowM hnow)
      intro u
      exact Preserves.bindM (updateDocDM_pres _ _ hfa hdm) (fun _ => Preserves.pureM _ _)

theorem sendRequestDMMessage_pres {γ : Type u} (dmId sid sn tx : String) (ty : DMsgType)
    {proj : St → γ}
    (hfa : ∀ s, proj { s with faults := s.faults.tail } = proj s)
    (hnow : ∀ s, proj { s with now := s.now + 1 } = proj s)
    (hni : ∀ s, proj { s with nextId := s.nextId + 1 } = proj s)
    (hdmm : ∀ s l, proj { s with dmMsgs := l } = proj s)
    (hdm : ∀ s l, proj { s with requestDMs := l } = proj s) :
    Preserves (sendRequestDMMessage dmId sid sn tx ty) proj := by
  unfold sendRequestDMMessage
  apply Preserves.tryCatchM _ (Preserves.pureM _ _)
  apply Preserves.bindM (Preserves.tsNowM hnow)
  intro now
  apply Preserves.bindM (addDocDMMsg_pres _ _ hfa hni hdmm)
  intro mid
  dsimp only
  split
  · exact Preserves.bindM (updateDocDM_pres _ _ hfa hdm) (fun _ => Preserves.pureM _ _)
  · exact Preserves.bindM (Preserves.pureM _ _) (fun _ => Preserves.pureM _ _)

theorem getGroupChatByProjectName_some (pn : String) :
    AlwaysSome (getGroupChatByProjectName pn) := by
  unfold getGroupChatByProjectName
  exact AlwaysSome.tryCatchS (AlwaysSome.pureS _)

theorem getProjectOwnerDetails_some (oid pn : String) :
    AlwaysSome (getProjectOwnerDetails oid pn) := by
  unfold getProjectOwnerDetails
  exact AlwaysSome.tryCatchS (AlwaysSome.pureS _)

theorem createGroupChat_some (pn desc cid cn ce : String) :
    AlwaysSome (createGroupChat pn desc cid cn ce) := by
  unfold createGroupChat
  exact AlwaysSome.tryCatchS (AlwaysSome.pureS _)

theorem addUserToGroupChat_some (cid uid un ue : String) :
    AlwaysSome (addUserToGroupChat cid uid un ue) := by
  unfold addUserToGroupChat
  exact AlwaysSome.tryCatchS (AlwaysSome.pureS _)

theorem closeRequestDM_some (rid : String) : AlwaysSome (closeRequestDM rid) := by
  unfold closeRequestDM
  exact AlwaysSome.tryCatchS (AlwaysSome.pureS _)

theorem sendRequestDMMessage_some (dmId sid sn tx : String) (ty : DMsgType) :
    AlwaysSome (sendRequestDMMessage dmId sid sn tx ty) := by
  unfold sendRequestDMMessage
  exact AlwaysSome.tryCatchS (AlwaysSome.pureS _)

theorem findOrCreateGroupChat_some (rq : ProjectRequest) :
    AlwaysSome (findOrCreateGroupChat rq) := by
  unfold findOrCreateGroupChat
  apply AlwaysSome.bindS (getGroupChatByProjectName_some _)
  intro gc
  cases gc with
  | some g => exact AlwaysSome.pureS _
  | none =>
      apply AlwaysSome.bindS (getProjectOwnerDetails_some _ _)
      intro po
      cases po with
      | some p =>
          apply AlwaysSome.bindS (createGroupChat_some _ _ _ _ _)
          intro gid
          cases gid with
          | some g2 => exact getGroupChatByProjectName_some _
          | none => exact AlwaysSome.pureS _
      | none => exact AlwaysSome.pureS _

/-! ### Document-list lemmas -/

theorem Doc.lookup_updateD {α : Type u} (l : List (Doc α)) (id : String) (f : α → α) :
    Doc.lookup (Doc.updateD l id f) id = (Doc.lookup l id).map f := by
  induction l with
  | nil => rfl
  | cons d t ih =>
      unfold Doc.lookup Doc.updateD
      unfold Doc.lookup Doc.updateD at ih
      by_cases hd : (d.id == id) = true
      · simp only [List.map_cons, hd, if_true]
        rw [List.find?_cons_of_pos _ (by simpa using hd),
          List.find?_cons_of_pos _ (by simpa using hd)]
        rfl
      · simp only [List.map_cons, hd, if_false]
        rw [List.find?_cons_of_neg _ (by simpa using hd),
          List.find?_cons_of_neg _ (by simpa using hd)]
        exact ih

theorem Doc.lookup_isSome_of_mem {α : Type u} {l : List (Doc α)} {d : Doc α} (hd : d ∈ l) :
    (Doc.lookup l d.id).isSome := by
  unfold Doc.lookup
  have : (l.find? (fun x => x.id == d.id)).isSome := by
    rw [List.find?_isSome]
    exact ⟨d, hd, by simp⟩
  simpa using this

/-! ### No-fault run equations for the service methods -/

theorem getGroupChatByProjectName_nil (pn : String) {s : St} (h : s.faults = []) :
    getGroupChatByProjectName pn s =
      (some (s.groupChats.filter
        (fun d => d.data.projectName == pn && d.data.isActive)).head?, s) := by
  unfold getGroupChatByProjectName
  rw [run_tryCatch, run_bind, queryChats_nil _ h]
  rfl

theorem getRequestDMByRequestId_nil (rid : String) {s : St} (h : s.faults = []) :
    getRequestDMByRequestId rid s = (some (activeDMsFor s rid).head?, s) := by
  unfold getRequestDMByRequestId activeDMsFor
  rw [run_tryCatch, run_bind, queryDMs_nil _ h]
  rfl

theorem getExistingRequest_nil (f t p : String) {s : St} (h : s.faults = []) :
    getExistingRequest f t p s = (some (pendingRequestsFor s f t p).head?, s) := by
  unfold getExistingRequest pendingRequestsFor
  rw [run_tryCatch, run_bind, queryRequests_nil _ h]
  rfl

theorem isUserGroupChatAdmin_nil (chatId userId : String) {s : St} (h : s.faults = []) :
    isUserGroupChatAdmin chatId userId s = (some (adminRole s chatId userId), s) := by
  unfold isUserGroupChatAdmin adminRole
  rw [run_tryCatch, run_bind, getDocChat_nil _ h]
  cases hx : Doc.lookup s.groupChats chatId with
  | none => simp [hx, run_pure]
  | some cd =>
      cases hm : mapGet cd.members userId with
      | none => simp [hx, hm, run_pure]
      | some om =>
          cases om with
          | none => simp [hx, hm, run_pure]
          | some mem => simp [hx, hm, run_pure]

/-- the pure value computed by getProjectOwnerDetails when no store operation
fails. -/
def ownerDetailsPure (s : St) (oid pn : String) : OwnerDetails :=
  match Doc.lookup s.users oid with
  | some userData =>
      { displayName := jsOr userData.displayName (jsOr userData.username "Anonymous")
        email := jsOr userData.email "" }
  | none =>
      match (s.posts.filter (fun d => d.data.uid == oid && d.data.title == pn)).head? with
      | some postDoc => { displayName := jsOr postDoc.data.username "Anonymous", email := "" }
      | none => { displayName := "Project Owner", email := "" }

theorem getProjectOwnerDetails_nil (oid pn : String) {s : St} (h : s.faults = []) :
    getProjectOwnerDetails oid pn s = (some (some (ownerDetailsPure s oid pn)), s) := by
  unfold getProjectOwnerDetails ownerDetailsPure
  rw [run_tryCatch, run_bind, getDocUser_nil _ h]
  cases hx : Doc.lookup s.users oid with
  | some u => simp [hx, run_pure]
  | none =>
      simp only [hx, run_bind, run_pure]
      rw [queryPosts_nil _ h]
      dsimp only
      cases hp : (s.posts.filter (fun d => d.data.uid == oid && d.data.title == pn)).head? with
      | some pd => simp [hp, run_pure]
      | none => simp [hp, run_pure]

theorem head?_length_le_one {α : Type u} {l : List α} {a : α}
    (h1 : l.head? = some a) (h2 : l.length ≤ 1) : l = [a] := by
  cases l with
  | nil => simp at h1
  | cons x t =>
      simp at h1
      cases t with
      | nil => rw [h1]
      | cons b u => simp at h2

theorem closeRequestDM_nil (rid : String) {s : St} (h : s.faults = []) :
    closeRequestDM rid s =
      match (activeDMsFor s rid).head? with
      | none => (some true, s)
      | some d => (some true,
          { s with now := s.now + 1,
                   requestDMs := Doc.updateD s.requestDMs d.id
                     (fun dm => { dm with isActive := false, updatedAt := s.now }) }) := by
  unfold closeRequestDM
  rw [run_tryCatch, run_bind, getRequestDMByRequestId_nil _ h]
  cases hh : (activeDMsFor s rid).head? with
  | none => simp [hh, run_pure]
  | some d =>
      have hd : d ∈ activeDMsFor s rid := by
        cases hl : activeDMsFor s rid with
        | nil => rw [hl] at hh; simp at hh
        | cons a t =>
            rw [hl] at hh
            simp at hh
            rw [hh]
            exact List.mem_cons_self d t
      have hmem : d ∈ s.requestDMs := List.mem_of_mem_filter hd
      have hsome : (Doc.lookup s.requestDMs d.id).isSome := Doc.lookup_isSome_of_mem hmem
      simp only [hh, run_bind, run_tsNow, run_pure]
      rw [updateDocDM_nil _ _ (show ({ s with now := s.now + 1 } : St).faults = [] from h)]
      simp only []
      rw [if_pos (by simpa using hsome)]

theorem activeDMs_close_eq_nil {l : List (Doc RequestDM)} {rid : String} {d : Doc RequestDM}
    (u : Nat)
    (hl : l.filter (fun x => x.data.requestId == rid && x.data.isActive) = [d]) :
    (Doc.updateD l d.id (fun dm => { dm with isActive := false, updatedAt := u })).filter
      (fun x => x.data.requestId == rid && x.data.isActive) = [] := by
  rw [List.filter_eq_nil_iff]
  intro x hx
  unfold Doc.updateD at hx
  rcases List.mem_map.mp hx with ⟨y, hy, hxy⟩
  by_cases hid : (y.id == d.id) = true
  · rw [if_pos hid] at hxy
    rw [← hxy]
    simp
  · rw [if_neg hid] at hxy
    rw [← hxy]
    intro hpy
    have hyf : y ∈ l.filter (fun x => x.data.requestId == rid && x.data.isActive) :=
      List.mem_filter.mpr ⟨hy, hpy⟩
    rw [hl] at hyf
    have hyd : y = d := by simpa using hyf
    rw [hyd] at hid
    simp at hid

theorem closeRequestDM_closes (rid : String) {s : St} (h : s.faults = [])
    (hle : (activeDMsFor s rid).length ≤ 1) :
    activeDMsFor (closeRequestDM rid s).2 rid = [] := by
  rw [closeRequestDM_nil rid h]
  cases hh : (activeDMsFor s rid).head? with
  | none =>
      have : activeDMsFor s rid = [] := by
        cases hl : activeDMsFor s rid with
        | nil => rfl
        | cons a t => rw [hl] at hh; simp at hh
      simpa using this
  | some d =>
      have hl : activeDMsFor s rid = [d] := head?_length_le_one hh hle
      dsimp only
      exact activeDMs_close_eq_nil s.now hl

/-! ### Concrete states for counterexamples and witnesses -/

/-- the empty store. -/
def baseSt : St :=
  { requests := [], groupChats := [], groupMsgs := [], requestDMs := [], dmMsgs := [],
    users := [], posts := [], now := 100, nextId := 0, faults := [] }

/-- a pending join request from alice to bob for project VR Study. -/
def reqA : ProjectRequest :=
  { fromUserId := "alice", fromUserName := "Alice", fromUserEmail := "alice@x.edu",
    toUserId := "bob", projectId := none, projectName := "VR Study",
    message := some "I know Unity.", status := ReqStatus.pending,
    type := ReqType.join_project, createdAt := 1, updatedAt := 1, hasDM := none }

/-- a chat member record for bob as owner. -/
def bobOwner : ChatMember :=
  { userId := "bob", displayName := "Bob", email := "bob@x.edu", joinedAt := 1,
    role := Role.owner, lastReadMessageId := none, lastReadAt := none }

/-- a group chat for VR Study owned by bob. -/
def vrChat : FirebaseGroupChat :=
  { projectName := "VR Study", description := some "vr", memberIds := ["bob"],
    members := [("bob", some bobOwner)], createdAt := 1, updatedAt := 1,
    lastMessage := none, isActive := true,
    settings := { allowInvites := true, isPublic := false } }

/-- the store holding just the pending request r1. -/
def c1s0 : St := { baseSt with requests := [⟨"r1", reqA⟩] }

/-- the store after accepting r1. -/
def c1s1 : St := (acceptProjectRequest "r1" c1s0).2

/-- the store after accepting then declining r1. -/
def c1s2 : St := (declineProjectRequest "r1" c1s1).2

/-- C1: the claim states that once a request is in a terminal state (accepted
or declined), a subsequent accept/decline call on the same id either fails or
leaves the status unchanged.  The code has no terminal-state guard: starting
from a store with the single pending request r1, acceptProjectRequest sets
the status to accepted and returns success, and the subsequent
declineProjectRequest also returns success and overwrites the terminal
status with declined.  This run evaluates the code at that failing input. -/
theorem C1_decline_after_accept_overwrites_terminal_status :
    (acceptProjectRequest "r1" c1s0).1 = some true ∧
    (Doc.lookup c1s1.requests "r1").map ProjectRequest.status = some ReqStatus.accepted ∧
    (declineProjectRequest "r1" c1s1).1 = some true ∧
    (Doc.lookup c1s2.requests "r1").map ProjectRequest.status = some ReqStatus.declined := by
  decide

/-- the store holding the VR Study chat with owner bob. -/
def c4s0 : St := { baseSt with groupChats := [⟨"g1", vrChat⟩] }

/-- the store after adding alice to the chat. -/
def c4s1 : St := (addUserToGroupChat "g1" "alice" "Alice" "alice@x.edu" c4s0).2

/-- the store after adding then removing alice. -/
def c4s2 : St := (removeUserFromGroupChat "g1" "alice" c4s1).2

/-- C4: the claim states that the key set of the members map always equals
the entries of the memberIds array after createGroupChat, addUserToGroupChat
and removeUserFromGroupChat.  addUserToGroupChat keeps the two in sync, but
removeUserFromGroupChat writes `members.alice = null`, which keeps the key
with a null value while arrayRemove drops alice from memberIds, so after the
removal the key set is (bob, alice) while the id array is just (bob).  This
run evaluates the code at that failing input. -/
theorem C4_remove_leaves_null_member_key :
    (addUserToGroupChat "g1" "alice" "Alice" "alice@x.edu" c4s0).1 = some true ∧
    (Doc.lookup c4s1.groupChats "g1").map
      (fun c => (memberKeys c, c.memberIds)) = some (["bob", "alice"], ["bob", "alice"]) ∧
    (removeUserFromGroupChat "g1" "alice" c4s1).1 = some true ∧
    (Doc.lookup c4s2.groupChats "g1").map
      (fun c => (memberKeys c, c.memberIds)) = some (["bob", "alice"], ["bob"]) := by
  decide

/-- a chat member record for uma with a last-read cursor at message m1,
read time 10. -/
def umaMember : ChatMember :=
  { userId := "uma", displayName := "Uma", email := "uma@x.edu", joinedAt := 1,
    role := Role.member, lastReadMessageId := some "m1", lastReadAt := some 10 }

/-- a chat message sent at time 5. -/
def msgAt5 : FirebaseChatMessage :=
  { senderId := "bob", senderName := "Bob", text := "hi", timestamp := 5,
    type := GMsgType.text, edited := false, editedAt := none }

/-- a chat message sent at time 15, after uma's last-read time 10. -/
def msgAt15 : FirebaseChatMessage :=
  { senderId := "bob", senderName := "Bob", text := "new", timestamp := 15,
    type := GMsgType.text, edited := false, editedAt := none }

/-- the store for the unread-count run: chat g1 with member uma whose cursor
is at time 10, one message before and one after the cursor, clock at 20. -/
def c5s : St :=
  { baseSt with
      groupChats := [⟨"g1",
        { vrChat with memberIds := ["bob", "uma"],
                      members := [("bob", some bobOwner), ("uma", some umaMember)] }⟩],
      groupMsgs := [⟨"g1", "m1", msgAt5⟩, ⟨"g1", "m2", msgAt15⟩],
      now := 20 }

/-- C5: the claim states that getUnreadMessageCount returns the number of
messages after the user's last-read cursor, or the count of all messages
when the user has never read any.  The never-read branch is implemented (2
messages give 2), but with a cursor present the second variant returns the
hard-coded 0 of its TODO branch and the first variant counts messages with
timestamp after the current clock (also 0 here), while the spec rule gives 1
(one message after read time 10).  This run evaluates the code at that
failing input, next to the spec-modelled count. -/
theorem C5_unread_count_ignores_cursor :
    (getUnreadMessageCount "g1" "uma" (some "m1") c5s).1 = some 0 ∧
    (getUnreadMessageCountV1 "g1" "uma" (some "m1") c5s).1 = some 0 ∧
    specUnreadCount c5s "g1" (some 10) = 1 ∧
    (getUnreadMessageCount "g1" "uma" none c5s).1 = some 2 ∧
    specUnreadCount c5s "g1" none = 2 := by
  decide

/-- no-fault run of createProjectRequest: either the existing pending request
id is returned and nothing is written, or a fresh pending request document is
inserted. -/
theorem createProjectRequest_nil (f fn fe t p : String) (m pid : Option String) {s : St}
    (h : s.faults = []) :
    createProjectRequest f fn fe t p m pid s =
      match (pendingRequestsFor s f t p).head? with
      | some d => (some (some d.id), s)
      | none => (some (some ("doc" ++ toString s.nextId)),
          { s with
              requests := s.requests ++ [⟨"doc" ++ toString s.nextId,
                { fromUserId := f, fromUserName := fn, fromUserEmail := fe, toUserId := t,
                  projectId := pid, projectName := p, message := m,
                  status := ReqStatus.pending, type := ReqType.join_project,
                  createdAt := s.now, updatedAt := s.now, hasDM := none }⟩],
              now := s.now + 1, nextId := s.nextId + 1 }) := by
  unfold createProjectRequest
  rw [run_tryCatch, run_bind, getExistingRequest_nil _ _ _ h]
  cases hh : (pendingRequestsFor s f t p).head? with
  | some d => simp [hh, run_pure]
  | none =>
      simp only [hh, run_bind, run_tsNow, run_pure]
      rw [addDocRequest_nil _ (show ({ s with now := s.now + 1 } : St).faults = [] from h)]

/-- C3: createProjectRequest is idempotent while a matching request is
pending.  From any fault-free store, two successive calls with identical
(fromUserId, toUserId, projectName) return the same request id, the second
call writes no request document, the number of matching pending requests
after both calls is one when it was zero and unchanged otherwise, and in
particular at most one pending request per triple is preserved. -/
theorem C3_createProjectRequest_idempotent (f fn fe t p : String) (m pid : Option String)
    (s : St) (h : s.faults = []) :
    ∃ id,
      (createProjectRequest f fn fe t p m pid s).1 = some (some id) ∧
      (createProjectRequest f fn fe t p m pid
        (createProjectRequest f fn fe t p m pid s).2).1 = some (some id) ∧
      (createProjectRequest f fn fe t p m pid
        (createProjectRequest f fn fe t p m pid s).2).2.requests
        = (createProjectRequest f fn fe t p m pid s).2.requests ∧
      (pendingRequestsFor (createProjectRequest f fn fe t p m pid
        (createProjectRequest f fn fe t p m pid s).2).2 f t p).length
        = (if (pendingRequestsFor s f t p).length = 0 then 1
           else (pendingRequestsFor s f t p).length) ∧
      ((pendingRequestsFor s f t p).length ≤ 1 →
        (pendingRequestsFor (createProjectRequest f fn fe t p m pid
          (createProjectRequest f fn fe t p m pid s).2).2 f t p).length ≤ 1) := by
  rw [createProjectRequest_nil f fn fe t p m pid h]
  cases hh : (pendingRequestsFor s f t p).head? with
  | some d =>
      dsimp only
      rw [createProjectRequest_nil f fn fe t p m pid h, hh]
      dsimp only
      have hne : (pendingRequestsFor s f t p).length ≠ 0 := by
        cases hl : pendingRequestsFor s f t p with
        | nil => rw [hl] at hh; simp at hh
        | cons a t2 => simp [hl]
      refine ⟨d.id, rfl, rfl, rfl, ?_, ?_⟩
      · rw [if_neg hne]
      · intro hle
        exact hle
  | none =>
      dsimp only
      have hps : pendingRequestsFor s f t p = [] := by
        cases hl : pendingRequestsFor s f t p with
        | nil => rfl
        | cons a t2 => rw [hl] at hh; simp at hh
      rw [@createProjectRequest_nil f fn fe t p m pid
        { s with
            requests := s.requests ++ [⟨"doc" ++ toString s.nextId,
              { fromUserId := f, fromUserName := fn, fromUserEmail := fe, toUserId := t,
                projectId := pid, projectName := p, message := m,
                status := ReqStatus.pending, type := ReqType.join_project,
                createdAt := s.now, updatedAt := s.now, hasDM := none }⟩],
            now := s.now + 1, nextId := s.nextId + 1 } h]
      have h1 : pendingRequestsFor
          { s with
              requests := s.requests ++ [⟨"doc" ++ toString s.nextId,
                { fromUserId := f, fromUserName := fn, fromUserEmail := fe, toUserId := t,
                  projectId := pid, projectName := p, message := m,
                  status := ReqStatus.pending, type := ReqType.join_project,
                  createdAt := s.now, updatedAt := s.now, hasDM := none }⟩],
              now := s.now + 1, nextId := s.nextId + 1 } f t p
          = [⟨"doc" ++ toString s.nextId,
              { fromUserId := f, fromUserName := fn, fromUserEmail := fe, toUserId := t,
                projectId := pid, projectName := p, message := m,
                status := ReqStatus.pending, type := ReqType.join_project,
                createdAt := s.now, updatedAt := s.now, hasDM := none }⟩] := by
        unfold pendingRequestsFor
        dsimp only
        rw [List.filter_append]
        have : pendingRequestsFor s f t p =
            s.requests.filter (fun d =>
              d.data.fromUserId == f && d.data.toUserId == t && d.data.projectName == p &&
              d.data.type == ReqType.join_project && d.data.status == ReqStatus.pending) := rfl
        rw [← this, hps]
        simp
      rw [h1, List.head?_cons]
      dsimp only
      refine ⟨"doc" ++ toString s.nextId, rfl, rfl, rfl, ?_, ?_⟩
      · rw [h1, hps]
        simp
      · intro hle
        rw [h1]
        simp

/-- witness for C3: the idempotency theorem applied to the empty store. -/
theorem C3_createProjectRequest_idempotent_witness :
    baseSt.faults = [] ∧
    ∃ id,
      (createProjectRequest "alice" "Alice" "a@x" "bob" "VR" none none baseSt).1
        = some (some id) ∧
      (createProjectRequest "alice" "Alice" "a@x" "bob" "VR" none none
        (createProjectRequest "alice" "Alice" "a@x" "bob" "VR" none none baseSt).2).1
        = some (some id) ∧
      (createProjectRequest "alice" "Alice" "a@x" "bob" "VR" none none
        (createProjectRequest "alice" "Alice" "a@x" "bob" "VR" none none baseSt).2).2.requests
        = (createProjectRequest "alice" "Alice" "a@x" "bob" "VR" none none baseSt).2.requests ∧
      (pendingRequestsFor (createProjectRequest "alice" "Alice" "a@x" "bob" "VR" none none
        (createProjectRequest "alice" "Alice" "a@x" "bob" "VR" none none baseSt).2).2
        "alice" "bob" "VR").length
        = (if (pendingRequestsFor baseSt "alice" "bob" "VR").length = 0 then 1
           else (pendingRequestsFor baseSt "alice" "bob" "VR").length) ∧
      ((pendingRequestsFor baseSt "alice" "bob" "VR").length ≤ 1 →
        (pendingRequestsFor (createProjectRequest "alice" "Alice" "a@x" "bob" "VR" none none
          (createProjectRequest "alice" "Alice" "a@x" "bob" "VR" none none baseSt).2).2
          "alice" "bob" "VR").length ≤ 1) :=
  ⟨rfl, C3_createProjectRequest_idempotent "alice" "Alice" "a@x" "bob" "VR" none none baseSt rfl⟩

/-- a system message send never touches the DM documents themselves: the
lastMessage update is skipped for system-typed messages. -/
theorem sendRequestDMMessage_system_pres_dms (dmId sid sn tx : String) :
    Preserves (sendRequestDMMessage dmId sid sn tx DMsgType.system) St.requestDMs := by
  unfold sendRequestDMMessage
  apply Preserves.tryCatchM _ (Preserves.pureM _ _)
  apply Preserves.bindM
    (@Preserves.tsNowM (List (Doc RequestDM)) St.requestDMs (fun _ => rfl))
  intro now
  apply Preserves.bindM
    (@addDocDMMsg_pres (List (Doc RequestDM)) _ _ St.requestDMs
      (fun _ => rfl) (fun _ => rfl) (fun _ _ => rfl))
  intro mid
  simp only [bne_self_eq_false, Bool.false_eq_true, if_false]
  exact Preserves.bindM (Preserves.pureM _ _) (fun _ => Preserves.pureM _ _)

/-- inserting a document that matches a predicate into a duplicate-free
store where nothing matched leaves at most one match. -/
theorem setD_filter_length_le_one {α : Type u} (l : List (Doc α)) (id : String) (a : α)
    (pred : Doc α → Bool)
    (hl : l.filter pred = []) (hp : pred ⟨id, a⟩ = true) (hnd : (l.map Doc.id).Nodup) :
    ((Doc.setD l id a).filter pred).length ≤ 1 := by
  have hnone : ∀ y ∈ l, ¬ pred y = true := List.filter_eq_nil_iff.mp hl
  unfold Doc.setD
  split
  · rw [← List.countP_eq_length_filter, List.countP_map]
    have hpt : ∀ y ∈ l, (pred ∘ fun d => if d.id == id then ⟨id, a⟩ else d) y = true ↔
        (fun y : Doc α => y.id == id) y = true := by
      intro y hy
      by_cases hid : (y.id == id) = true
      · simp only [Function.comp, hid, if_true, hp]
      · simp only [Function.comp, hid, if_false]
        constructor
        · intro hc
          exact absurd hc (hnone y hy)
        · intro hc
          exact absurd hc (by simp [hid])
    rw [List.countP_congr hpt]
    have hcount : l.countP (fun y : Doc α => y.id == id) = (l.map Doc.id).count id := by
      rw [List.count, List.countP_map]
      rfl
    rw [hcount]
    exact List.nodup_iff_count_le_one.mp hnd id
  · rw [List.filter_append, hl]
    simp [hp]

/-- no-fault run of createRequestDM when no active DM exists for the request
and the parent request document is present: the DM document is created, the
request is flagged hasDM, and the system opener message is appended without
touching the DM's lastMessage summary. -/
theorem createRequestDM_nil_create (rid rqId rqName rqEmail owId owName owEmail
    pjId pjName : String) {s : St} (h : s.faults = [])
    (hh : (activeDMsFor s rid).head? = none)
    (hreq : (Doc.lookup s.requests rid).isSome) :
    createRequestDM rid rqId rqName rqEmail owId owName owEmail pjId pjName s =
      (some (some ("doc" ++ toString s.nextId)),
        { s with
            requestDMs := Doc.setD s.requestDMs ("doc" ++ toString s.nextId)
              { requestId := rid
                participants := sortPair rqId owId
                participantDetails := [
                  (rqId, { userId := rqId, displayName := rqName, email := rqEmail }),
                  (owId, { userId := owId, displayName := owName, email := owEmail })]
                projectContext := { projectId := pjId, projectName := pjName }
                createdAt := s.now
                updatedAt := s.now
                lastMessage := none
                isActive := true }
            requests := Doc.updateD s.requests rid
              (fun r => { r with hasDM := some true, updatedAt := s.now })
            dmMsgs := s.dmMsgs ++ [⟨"doc" ++ toString s.nextId,
              "doc" ++ toString (s.nextId + 1),
              { senderId := "system", senderName := "System",
                text := "This is a temporary chat about the request to join \"" ++ pjName ++
                  "\". This conversation will be closed when the request is resolved.",
                timestamp := s.now + 1, type := DMsgType.system }⟩]
            now := s.now + 2, nextId := s.nextId + 2 }) := by
  unfold createRequestDM sendRequestDMMessage
  simp only [run_tryCatch, run_bind, run_pure, run_freshId, run_tsNow,
    getRequestDMByRequestId_nil _ h, hh, setDocDM_nil, updateDocRequest_nil,
    addDocDMMsg_nil, h, hreq, if_true, bne_self_eq_false, Bool.false_eq_true, if_false]

/-- no-fault run of createRequestDM when no active DM exists and the parent
request document is absent: the DM document is still created, but flagging
the request throws, the catch handler returns null, and the seeded message is
never sent. -/
theorem createRequestDM_nil_create_orphan (rid rqId rqName rqEmail owId owName owEmail
    pjId pjName : String) {s : St} (h : s.faults = [])
    (hh : (activeDMsFor s rid).head? = none)
    (hreq : Doc.lookup s.requests rid = none) :
    createRequestDM rid rqId rqName rqEmail owId owName owEmail pjId pjName s =
      (some none,
        { s with
            requestDMs := Doc.setD s.requestDMs ("doc" ++ toString s.nextId)
              { requestId := rid
                participants := sortPair rqId owId
                participantDetails := [
                  (rqId, { userId := rqId, displayName := rqName, email := rqEmail }),
                  (owId, { userId := owId, displayName := owName, email := owEmail })]
                projectContext := { projectId := pjId, projectName := pjName }
                createdAt := s.now
                updatedAt := s.now
                lastMessage := none
                isActive := true }
            now := s.now + 1, nextId := s.nextId + 1 }) := by
  unfold createRequestDM
  simp only [run_tryCatch, run_bind, run_pure, run_freshId, run_tsNow, run_throw,
    getRequestDMByRequestId_nil _ h, hh, setDocDM_nil, updateDocRequest_nil,
    h, hreq, Option.isSome_none, Bool.false_eq_true, if_false]

/-- C7: createRequestDM is idempotent per request id.  From any fault-free,
duplicate-free store: when an active DM for the request already exists the
call returns that DM's id and leaves the store entirely unchanged (so no new
DM document is created), and the at-most-one-active-DM-per-request invariant
is preserved by every call. -/
theorem C7_createRequestDM_idempotent (rid rqId rqName rqEmail owId owName owEmail
    pjId pjName : String) (s : St) (h : s.faults = [])
    (hnd : (s.requestDMs.map Doc.id).Nodup) :
    (∀ d, (activeDMsFor s rid).head? = some d →
      createRequestDM rid rqId rqName rqEmail owId owName owEmail pjId pjName s
        = (some (some d.id), s)) ∧
    ((activeDMsFor s rid).length ≤ 1 →
      (activeDMsFor
        (createRequestDM rid rqId rqName rqEmail owId owName owEmail pjId pjName s).2
        rid).length ≤ 1) := by
  constructor
  · intro d hd
    unfold createRequestDM
    rw [run_tryCatch, run_bind, getRequestDMByRequestId_nil _ h, hd]
    rfl
  · intro hle
    cases hh : (activeDMsFor s rid).head? with
    | some d =>
        unfold createRequestDM
        rw [run_tryCatch, run_bind, getRequestDMByRequestId_nil _ h, hh]
        exact hle
    | none =>
        have hl : activeDMsFor s rid = [] := by
          cases hl2 : activeDMsFor s rid with
          | nil => rfl
          | cons a t2 => rw [hl2] at hh; simp at hh
        have hp : (fun d : Doc RequestDM => d.data.requestId == rid && d.data.isActive)
            ⟨"doc" ++ toString s.nextId,
              { requestId := rid
                participants := sortPair rqId owId
                participantDetails := [
                  (rqId, { userId := rqId, displayName := rqName, email := rqEmail }),
                  (owId, { userId := owId, displayName := owName, email := owEmail })]
                projectContext := { projectId := pjId, projectName := pjName }
                createdAt := s.now
                updatedAt := s.now
                lastMessage := none
                isActive := true }⟩ = true := by simp
        by_cases hreq : (Doc.lookup s.requests rid).isSome
        · rw [createRequestDM_nil_create rid rqId rqName rqEmail owId owName owEmail
            pjId pjName h hh hreq]
          exact setD_filter_length_le_one _ _ _ _ hl hp hnd
        · rw [createRequestDM_nil_create_orphan rid rqId rqName rqEmail owId owName owEmail
            pjId pjName h hh (Option.not_isSome_iff_eq_none.mp hreq)]
          exact setD_filter_length_le_one _ _ _ _ hl hp hnd

/-- an active negotiation DM between alice and bob for request r1. -/
def dm1 : RequestDM :=
  { requestId := "r1", participants := ["alice", "bob"],
    participantDetails := [
      ("alice", { userId := "alice", displayName := "Alice", email := "alice@x.edu" }),
      ("bob", { userId := "bob", displayName := "Bob", email := "bob@x.edu" })],
    projectContext := { projectId := "p1", projectName := "VR Study" },
    createdAt := 2, updatedAt := 2, lastMessage := none, isActive := true }

/-- a store with the pending request r1 and its active DM dm1. -/
def c7s : St :=
  { baseSt with requests := [⟨"r1", { reqA with hasDM := some true }⟩],
                requestDMs := [⟨"dm1", dm1⟩] }

/-- witness for C7: the idempotency theorem applied to a store that already
holds an active DM for request r1. -/
theorem C7_createRequestDM_idempotent_witness :
    c7s.faults = [] ∧ (c7s.requestDMs.map Doc.id).Nodup ∧
    ((∀ d, (activeDMsFor c7s "r1").head? = some d →
      createRequestDM "r1" "alice" "Alice" "alice@x.edu" "bob" "Bob" "bob@x.edu"
        "p1" "VR Study" c7s = (some (some d.id), c7s)) ∧
    ((activeDMsFor c7s "r1").length ≤ 1 →
      (activeDMsFor
        (createRequestDM "r1" "alice" "Alice" "alice@x.edu" "bob" "Bob" "bob@x.edu"
          "p1" "VR Study" c7s).2 "r1").length ≤ 1)) :=
  ⟨rfl, by decide,
    C7_createRequestDM_idempotent "r1" "alice" "Alice" "alice@x.edu" "bob" "Bob"
      "bob@x.edu" "p1" "VR Study" c7s rfl (by decide)⟩

/-- no-fault run of sendRequestDMMessage with a system-typed message: the
message is appended and the DM documents are untouched. -/
theorem sendRequestDMMessage_nil_system (dmId sid sn tx : String) {s : St}
    (h : s.faults = []) :
    sendRequestDMMessage dmId sid sn tx DMsgType.system s =
      (some true,
        { s with
            dmMsgs := s.dmMsgs ++ [⟨dmId, "doc" ++ toString s.nextId,
              { senderId := sid, senderName := sn, text := tx, timestamp := s.now,
                type := DMsgType.system }⟩],
            now := s.now + 1, nextId := s.nextId + 1 }) := by
  unfold sendRequestDMMessage
  simp only [run_tryCatch, run_bind, run_pure, run_tsNow, addDocDMMsg_nil, h,
    bne_self_eq_false, Bool.false_eq_true, if_false]

/-- no-fault run of sendRequestDMMessage with a non-system message on an
existing DM: the message is appended and the DM's lastMessage summary and
updatedAt are rewritten. -/
theorem sendRequestDMMessage_nil_text (dmId sid sn tx : String) (ty : DMsgType)
    (hty : (ty != DMsgType.system) = true) {s : St} (h : s.faults = [])
    (hdm : (Doc.lookup s.requestDMs dmId).isSome) :
    sendRequestDMMessage dmId sid sn tx ty s =
      (some true,
        { s with
            dmMsgs := s.dmMsgs ++ [⟨dmId, "doc" ++ toString s.nextId,
              { senderId := sid, senderName := sn, text := tx, timestamp := s.now,
                type := ty }⟩],
            requestDMs := Doc.updateD s.requestDMs dmId
              (fun dm => { dm with
                lastMessage := some
                  { text := tx, senderId := sid, senderName := sn, timestamp := s.now },
                updatedAt := s.now }),
            now := s.now + 1, nextId := s.nextId + 1 }) := by
  unfold sendRequestDMMessage
  simp only [run_tryCatch, run_bind, run_pure, run_tsNow, addDocDMMsg_nil,
    updateDocDM_nil, h, hty, hdm, if_true]

/-- C8: a system-typed sendRequestDMMessage appends the message to the DM's
message log but leaves the DM document (its lastMessage summary and
updatedAt included) unchanged, while a non-system message on an existing DM
rewrites the lastMessage summary and updatedAt. -/
theorem C8_system_message_skips_summary (dmId sid sn tx : String) (s : St)
    (h : s.faults = []) :
    (sendRequestDMMessage dmId sid sn tx DMsgType.system s).1 = some true ∧
    (sendRequestDMMessage dmId sid sn tx DMsgType.system s).2.requestDMs = s.requestDMs ∧
    (sendRequestDMMessage dmId sid sn tx DMsgType.system s).2.dmMsgs
      = s.dmMsgs ++ [⟨dmId, "doc" ++ toString s.nextId,
          { senderId := sid, senderName := sn, text := tx, timestamp := s.now,
            type := DMsgType.system }⟩] ∧
    (∀ ty, ty ≠ DMsgType.system → (Doc.lookup s.requestDMs dmId).isSome →
      (Doc.lookup (sendRequestDMMessage dmId sid sn tx ty s).2.requestDMs dmId).map
        (fun dm => (dm.lastMessage, dm.updatedAt))
        = some (some { text := tx, senderId := sid, senderName := sn, timestamp := s.now },
            s.now)) := by
  rw [sendRequestDMMessage_nil_system dmId sid sn tx h]
  refine ⟨rfl, rfl, rfl, ?_⟩
  intro ty hty hdm
  have hty2 : (ty != DMsgType.system) = true := by
    cases ty
    · rfl
    · exact absurd rfl hty
  rw [sendRequestDMMessage_nil_text dmId sid sn tx ty hty2 h hdm]
  rcases Option.isSome_iff_exists.mp hdm with ⟨dm0, hdm0⟩
  dsimp only
  rw [Doc.lookup_updateD, hdm0]
  rfl

/-- witness for C8: the frame theorem applied to a store holding the DM dm1. -/
theorem C8_system_message_skips_summary_witness :
    c7s.faults = [] ∧
    ((sendRequestDMMessage "dm1" "alice" "Alice" "hello" DMsgType.system c7s).1
      = some true ∧
    (sendRequestDMMessage "dm1" "alice" "Alice" "hello" DMsgType.system c7s).2.requestDMs
      = c7s.requestDMs ∧
    (sendRequestDMMessage "dm1" "alice" "Alice" "hello" DMsgType.system c7s).2.dmMsgs
      = c7s.dmMsgs ++ [⟨"dm1", "doc" ++ toString c7s.nextId,
          { senderId := "alice", senderName := "Alice", text := "hello",
            timestamp := c7s.now, type := DMsgType.system }⟩] ∧
    (∀ ty, ty ≠ DMsgType.system → (Doc.lookup c7s.requestDMs "dm1").isSome →
      (Doc.lookup (sendRequestDMMessage "dm1" "alice" "Alice" "hello" ty c7s).2.requestDMs
        "dm1").map (fun dm => (dm.lastMessage, dm.updatedAt))
        = some (some
            { text := "hello", senderId := "alice", senderName := "Alice",
              timestamp := c7s.now }, c7s.now))) :=
  ⟨rfl, C8_system_message_skips_summary "dm1" "alice" "Alice" "hello" c7s rfl⟩

/-- C9: a user who is neither the sender of a message nor an owner/admin of
the group chat gets a failure from deleteMessage and from editMessage, and
the store — the message included — is left completely unchanged: the
authorization check precedes any delete or edit write. -/
theorem C9_unauthorized_moderation_rejected (chatId messageId userId newText : String)
    (m : FirebaseChatMessage) (s : St) (h : s.faults = [])
    (hm : SubDoc.lookup s.groupMsgs chatId messageId = some m)
    (hsender : m.senderId ≠ userId)
    (hadmin : adminRole s chatId userId = false) :
    deleteMessage chatId messageId userId s = (some false, s) ∧
    editMessage chatId messageId userId newText s = (some false, s) := by
  have hs : (m.senderId == userId) = false := beq_eq_false_iff_ne.mpr hsender
  constructor
  · unfold deleteMessage
    rw [run_tryCatch, run_bind, isUserGroupChatAdmin_nil _ _ h]
    dsimp only
    rw [run_bind, getDocGroupMsg_nil _ _ h, hm]
    simp [hadmin, hs, run_pure]
  · unfold editMessage
    rw [run_tryCatch, run_bind, getDocGroupMsg_nil _ _ h, hm]
    simp [hs, run_pure, bne]

/-- a text message in chat g1 sent by bob. -/
def bobMsg : FirebaseChatMessage :=
  { senderId := "bob", senderName := "Bob", text := "hello team", timestamp := 3,
    type := GMsgType.text, edited := false, editedAt := none }

/-- a chat member record for mallory with the plain member role. -/
def malloryMember : ChatMember :=
  { userId := "mallory", displayName := "Mallory", email := "m@x.edu", joinedAt := 2,
    role := Role.member, lastReadMessageId := none, lastReadAt := none }

/-- a store with the VR Study chat owned by bob, member mallory with plain
member role, and one message from bob. -/
def c9s : St :=
  { baseSt with
      groupChats := [⟨"g1",
        { vrChat with
            memberIds := ["bob", "mallory"],
            members := [("bob", some bobOwner), ("mallory", some malloryMember)] }⟩],
      groupMsgs := [⟨"g1", "m1", bobMsg⟩] }

/-- witness for C9: mallory, a plain member who did not send bob's message,
can neither delete nor edit it. -/
theorem C9_unauthorized_moderation_rejected_witness :
    c9s.faults = [] ∧
    SubDoc.lookup c9s.groupMsgs "g1" "m1" = some bobMsg ∧
    bobMsg.senderId ≠ "mallory" ∧
    adminRole c9s "g1" "mallory" = false ∧
    (deleteMessage "g1" "m1" "mallory" c9s = (some false, c9s) ∧
     editMessage "g1" "m1" "mallory" "defaced" c9s = (some false, c9s)) :=
  ⟨rfl, by decide, by decide, by decide,
    C9_unauthorized_moderation_rejected "g1" "m1" "mallory" "defaced" bobMsg c9s rfl
      (by decide) (by decide) (by decide)⟩

/-- no-fault run of createGroupChat: the chat document is written with the
creator as sole member and owner. -/
theorem createGroupChat_nil (pn desc cid cn ce : String) {s : St} (h : s.faults = []) :
    createGroupChat pn desc cid cn ce s =
      (some (some ("doc" ++ toString s.nextId)),
        { s with
            groupChats := Doc.setD s.groupChats ("doc" ++ toString s.nextId)
              { projectName := pn
                description := some desc
                memberIds := [cid]
                members := [(cid, some
                  { userId := cid, displayName := cn, email := ce, joinedAt := s.now,
                    role := Role.owner, lastReadMessageId := none, lastReadAt := none })]
                createdAt := s.now
                updatedAt := s.now
                lastMessage := none
                isActive := true
                settings := { allowInvites := true, isPublic := false } }
            now := s.now + 1, nextId := s.nextId + 1 }) := by
  unfold createGroupChat
  simp only [run_tryCatch, run_bind, run_pure, run_freshId, run_tsNow, setDocChat_nil, h]

/-- no-fault run of addUserToGroupChat on an existing chat: the member map
entry and the id array are updated in one write. -/
theorem addUserToGroupChat_nil_found (cid uid un ue : String) {s : St} (h : s.faults = [])
    (hc : (Doc.lookup s.groupChats cid).isSome) :
    addUserToGroupChat cid uid un ue s =
      (some true,
        { s with
            groupChats := Doc.updateD s.groupChats cid
              (fun c => { c with
                members := mapSet c.members uid (some
                  { userId := uid, displayName := un, email := ue, joinedAt := s.now,
                    role := Role.member, lastReadMessageId := none, lastReadAt := none })
                memberIds := arrayUnion c.memberIds uid
                updatedAt := s.now + 1 })
            now := s.now + 2 }) := by
  unfold addUserToGroupChat
  simp only [run_tryCatch, run_bind, run_pure, run_tsNow, updateDocChat_nil, h, hc, if_true]

/-- inserting a matching document into a store where nothing matched makes it
the first match. -/
theorem setD_filter_head {α : Type u} (l : List (Doc α)) (id : String) (a : α)
    (pred : Doc α → Bool)
    (hl : l.filter pred = []) (hp : pred ⟨id, a⟩ = true) :
    ((Doc.setD l id a).filter pred).head? = some ⟨id, a⟩ := by
  have hnone : ∀ y ∈ l, ¬ pred y = true := List.filter_eq_nil_iff.mp hl
  have hall : ∀ x ∈ (Doc.setD l id a).filter pred, x = (⟨id, a⟩ : Doc α) := by
    intro x hx
    rcases List.mem_filter.mp hx with ⟨hx1, hx2⟩
    unfold Doc.setD at hx1
    by_cases hfound : (l.find? (fun d => d.id == id)).isSome
    · rw [if_pos hfound] at hx1
      rcases List.mem_map.mp hx1 with ⟨y, hy, hxy⟩
      by_cases hid : (y.id == id) = true
      · rw [if_pos hid] at hxy
        exact hxy.symm
      · rw [if_neg hid] at hxy
        rw [← hxy] at hx2
        exact absurd hx2 (hnone y hy)
    · rw [if_neg hfound] at hx1
      rcases List.mem_append.mp hx1 with hy | hy
      · exact absurd hx2 (hnone x hy)
      · simpa using hy
  have hne : (Doc.setD l id a).filter pred ≠ [] := by
    intro hemp
    have hmem : (⟨id, a⟩ : Doc α) ∈ Doc.setD l id a := by
      unfold Doc.setD
      by_cases hfound : (l.find? (fun d => d.id == id)).isSome
      · rw [if_pos hfound]
        rcases List.find?_isSome.mp hfound with ⟨y, hy, hyid⟩
        refine List.mem_map.mpr ⟨y, hy, ?_⟩
        simp [hyid]
      · rw [if_neg hfound]
        exact List.mem_append_right _ (by simp)
    have : (⟨id, a⟩ : Doc α) ∈ (Doc.setD l id a).filter pred :=
      List.mem_filter.mpr ⟨hmem, hp⟩
    rw [hemp] at this
    simp at this
  cases hc : (Doc.setD l id a).filter pred with
  | nil => exact absurd hc hne
  | cons x t =>
      have : x = ⟨id, a⟩ := hall x (by rw [hc]; exact List.mem_cons_self x t)
      rw [List.head?_cons, this]

/-- the image of a stored document under updateD at its own id stays in the
store. -/
theorem updateD_mem_preserved {α : Type u} {l : List (Doc α)} {g : Doc α} (hg : g ∈ l)
    (f : α → α) : (⟨g.id, f g.data⟩ : Doc α) ∈ Doc.updateD l g.id f := by
  unfold Doc.updateD
  have himg := List.mem_map_of_mem
    (fun d : Doc α => if d.id == g.id then ⟨d.id, f d.data⟩ else d) hg
  simpa using himg

/-- a setDoc write leaves the written document in the store. -/
theorem setD_mem_self {α : Type u} (l : List (Doc α)) (id : String) (a : α) :
    (⟨id, a⟩ : Doc α) ∈ Doc.setD l id a := by
  unfold Doc.setD
  by_cases hfound : (l.find? (fun d => d.id == id)).isSome
  · rw [if_pos hfound]
    rcases List.find?_isSome.mp hfound with ⟨y, hy, hyid⟩
    refine List.mem_map.mpr ⟨y, hy, ?_⟩
    simp [hyid]
  · rw [if_neg hfound]
    exact List.mem_append_right _ (by simp)

/-- no-fault run of the find-or-create block when no active chat exists for
the request's project: a chat for that project is created and returned, and
the other collections are untouched. -/
theorem findOrCreateGroupChat_nil_creates (rq : ProjectRequest) {s : St}
    (h : s.faults = [])
    (hnochat : s.groupChats.filter
      (fun d => d.data.projectName == rq.projectName && d.data.isActive) = []) :
    ∃ g s2, findOrCreateGroupChat rq s = (some (some g), s2) ∧
      g.data.projectName = rq.projectName ∧ g.data.isActive = true ∧
      g ∈ s2.groupChats ∧ s2.faults = [] ∧
      s2.requests = s.requests ∧ s2.requestDMs = s.requestDMs ∧
      s2.dmMsgs = s.dmMsgs ∧ s2.groupMsgs = s.groupMsgs ∧
      (Doc.lookup s2.groupChats g.id).isSome := by
  unfold findOrCreateGroupChat
  rw [run_bind, getGroupChatByProjectName_nil _ h, hnochat, List.head?_nil]
  dsimp only
  rw [run_bind, getProjectOwnerDetails_nil _ _ h]
  dsimp only
  rw [run_bind, createGroupChat_nil _ _ _ _ _ (by exact h)]
  dsimp only
  rw [getGroupChatByProjectName_nil _ (by exact h)]
  dsimp only
  rw [setD_filter_head s.groupChats _ _ _ hnochat (by simp)]
  refine ⟨_, _, rfl, rfl, rfl, ?_, ?_, rfl, rfl, rfl, rfl, ?_⟩
  · exact setD_mem_self _ _ _
  · exact h
  · exact Doc.lookup_isSome_of_mem (setD_mem_self _ _ _)

theorem checkFault_cases (s : St) :
    checkFault s = (none, { s with faults := s.faults.tail }) ∨
    checkFault s = (some (), { s with faults := s.faults.tail }) := by
  unfold checkFault takeFault
  by_cases hb : s.faults.headD false = true
  · left
    rw [run_bind]
    dsimp only
    rw [if_pos hb]
    rfl
  · right
    rw [run_bind]
    dsimp only
    rw [if_neg hb]
    rfl

theorem getDocUser_cases (id : String) (s : St) :
    getDocUser id s = (none, { s with faults := s.faults.tail }) ∨
    getDocUser id s = (some (Doc.lookup s.users id), { s with faults := s.faults.tail }) := by
  unfold getDocUser
  rcases checkFault_cases s with hc | hc <;> rw [run_bind, hc]
  · left
    rfl
  · right
    rfl

theorem queryPosts_cases (p : PostDoc → Bool) (s : St) :
    queryPosts p s = (none, { s with faults := s.faults.tail }) ∨
    queryPosts p s = (some (s.posts.filter (fun d => p d.data)),
      { s with faults := s.faults.tail }) := by
  unfold queryPosts
  rcases checkFault_cases s with hc | hc <;> rw [run_bind, hc]
  · left
    rfl
  · right
    rfl

/-- no-fault run of the chat-admission step when no active chat matches the
request's project: the chat is created, the requester added, and the step
reports success without touching any other collection. -/
theorem acceptChatStep_nil_creates (rq : ProjectRequest) {s : St} (h : s.faults = [])
    (hnochat : s.groupChats.filter
      (fun d => d.data.projectName == rq.projectName && d.data.isActive) = []) :
    ∃ g s5, acceptChatStep rq s = (some true, s5) ∧
      g ∈ s5.groupChats ∧ g.data.projectName = rq.projectName ∧ g.data.isActive = true ∧
      s5.faults = [] ∧ s5.requests = s.requests ∧ s5.requestDMs = s.requestDMs ∧
      s5.dmMsgs = s.dmMsgs ∧ s5.groupMsgs = s.groupMsgs := by
  obtain ⟨g, s4, hfc, hname, hact, hmem, hf4, hreq4, hdm4, hdmm4, hgm4, hlkp⟩ :=
    findOrCreateGroupChat_nil_creates rq h hnochat
  unfold acceptChatStep
  rw [run_bind, hfc]
  dsimp only
  rw [run_bind, addUserToGroupChat_nil_found _ _ _ _ hf4 hlkp]
  dsimp only
  rw [if_pos rfl, run_pure]
  refine ⟨⟨g.id, (fun c => { c with
      members := mapSet c.members rq.fromUserId (some
        { userId := rq.fromUserId, displayName := rq.fromUserName,
          email := rq.fromUserEmail, joinedAt := s4.now, role := Role.member,
          lastReadMessageId := none, lastReadAt := none }),
      memberIds := arrayUnion c.memberIds rq.fromUserId,
      updatedAt := s4.now + 1 }) g.data⟩, _, rfl, ?_, ?_, ?_, hf4, hreq4, hdm4, hdmm4, hgm4⟩
  · have hm2 := updateD_mem_preserved hmem (fun c => { c with
      members := mapSet c.members rq.fromUserId (some
        { userId := rq.fromUserId, displayName := rq.fromUserName,
          email := rq.fromUserEmail, joinedAt := s4.now, role := Role.member,
          lastReadMessageId := none, lastReadAt := none }),
      memberIds := arrayUnion c.memberIds rq.fromUserId,
      updatedAt := s4.now + 1 })
    exact hm2
  · exact hname
  · exact hact

/-- C10: getProjectOwnerDetails never returns null — under every fault
schedule and store it produces some owner details (user record, project post
or the constant fallback) — and consequently, in acceptProjectRequest run on
a store where the request exists but no active group chat matches its
project, the owner-details guard passes and the group-chat creation is
attempted and succeeds: the call returns success and the final store
contains an active group chat named after the project. -/
theorem C10_owner_details_never_null (oid pn rid : String) (s : St) :
    (∃ d, (getProjectOwnerDetails oid pn s).1 = some (some d)) ∧
    (∀ rq, s.faults = [] →
      Doc.lookup s.requests rid = some rq →
      s.groupChats.filter
        (fun d => d.data.projectName == rq.projectName && d.data.isActive) = [] →
      (acceptProjectRequest rid s).1 = some true ∧
      ∃ g, g ∈ (acceptProjectRequest rid s).2.groupChats ∧
        g.data.projectName = rq.projectName ∧ g.data.isActive = true) := by
  constructor
  · unfold getProjectOwnerDetails
    rw [run_tryCatch, run_bind]
    rcases getDocUser_cases oid s with hc | hc <;> rw [hc]
    · exact ⟨_, rfl⟩
    · cases hl : Doc.lookup s.users oid with
      | some u => exact ⟨_, rfl⟩
      | none =>
          dsimp only
          rw [run_bind]
          rcases queryPosts_cases (fun p2 => p2.uid == oid && p2.title == pn)
            { s with faults := s.faults.tail } with hq | hq
          · rw [hq]
            exact ⟨_, rfl⟩
          · rw [hq]
            dsimp only
            cases hp : (s.posts.filter
                (fun d => d.data.uid == oid && d.data.title == pn)).head? with
            | some pd => exact ⟨_, rfl⟩
            | none => exact ⟨_, rfl⟩
  · intro rq hf hrq hnochat
    unfold acceptProjectRequest
    rw [run_tryCatch, run_bind, getDocRequest_nil _ hf, hrq]
    dsimp only
    rw [run_bind, run_tsNow]
    dsimp only
    rw [run_bind, updateDocRequest_nil rid _ (by exact hf), if_pos (by simp [hrq])]
    dsimp only
    rw [run_bind, closeRequestDM_nil rid (by exact hf)]
    cases hcl : (activeDMsFor
        { s with
            requests := Doc.updateD s.requests rid
              (fun r => { r with status := ReqStatus.accepted, updatedAt := s.now }),
            now := s.now + 1 } rid).head? with
    | none =>
        dsimp only
        obtain ⟨g, s5, hstep, hmem, hname, hact, hf5, hreq5, hdm5, hdmm5, hgm5⟩ :=
          @acceptChatStep_nil_creates rq
            { s with
                requests := Doc.updateD s.requests rid
                  (fun r => { r with status := ReqStatus.accepted, updatedAt := s.now }),
                now := s.now + 1 } hf hnochat
        rw [hstep]
        exact ⟨rfl, g, hmem, hname, hact⟩
    | some d =>
        dsimp only
        obtain ⟨g, s5, hstep, hmem, hname, hact, hf5, hreq5, hdm5, hdmm5, hgm5⟩ :=
          @acceptChatStep_nil_creates rq
            { s with
                requests := Doc.updateD s.requests rid
                  (fun r => { r with status := ReqStatus.accepted, updatedAt := s.now }),
                requestDMs := Doc.updateD s.requestDMs d.id
                  (fun dm => { dm with isActive := false, updatedAt := s.now + 1 }),
                now := s.now + 1 + 1 } hf hnochat
        rw [hstep]
        exact ⟨rfl, g, hmem, hname, hact⟩

/-- a store holding only the pending request r1, for the C10 witness. -/
def c10s : St := { baseSt with requests := [⟨"r1", reqA⟩] }

/-- witness for C10: owner details resolve on the empty store, and accepting
r1 on a store with no group chat creates the VR Study chat. -/
theorem C10_owner_details_never_null_witness :
    (∃ d, (getProjectOwnerDetails "bob" "VR Study" baseSt).1 = some (some d)) ∧
    Doc.lookup c10s.requests "r1" = some reqA ∧
    c10s.groupChats.filter
      (fun d => d.data.projectName == reqA.projectName && d.data.isActive) = [] ∧
    ((acceptProjectRequest "r1" c10s).1 = some true ∧
     ∃ g, g ∈ (acceptProjectRequest "r1" c10s).2.groupChats ∧
       g.data.projectName = reqA.projectName ∧ g.data.isActive = true) :=
  ⟨(C10_owner_details_never_null "bob" "VR Study" "r1" baseSt).1,
   by decide, by decide,
   (C10_owner_details_never_null "bob" "VR Study" "r1" c10s).2 reqA rfl
     (by decide) (by decide)⟩

theorem queryDMs_cases (p : RequestDM → Bool) (s : St) :
    queryDMs p s = (none, { s with faults := s.faults.tail }) ∨
    queryDMs p s = (some (s.requestDMs.filter (fun d => p d.data)),
      { s with faults := s.faults.tail }) := by
  unfold queryDMs
  rcases checkFault_cases s with hc | hc <;> rw [run_bind, hc]
  · left
    rfl
  · right
    rfl

/-- every DM in a getUserRequestDMs result set is an active DM of the
queried store, under any fault schedule. -/
theorem getUserRequestDMs_mem_active (u : String) (s' : St) {l : List (Doc RequestDM)}
    (hl : (getUserRequestDMs u s').1 = some l) :
    ∀ dm ∈ l, dm ∈ s'.requestDMs ∧ dm.data.isActive = true := by
  unfold getUserRequestDMs at hl
  rcases queryDMs_cases (fun d => d.participants.contains u && d.isActive) s' with hq | hq <;>
    rw [run_tryCatch, run_bind, hq] at hl
  · dsimp only at hl
    rw [run_pure] at hl
    dsimp only at hl
    intro dm hdm
    rw [show l = [] from (Option.some_inj.mp hl).symm] at hdm
    simp at hdm
  · dsimp only at hl
    rw [run_pure] at hl
    dsimp only at hl
    have hl3 : l = s'.requestDMs.filter
        (fun d => d.data.participants.contains u && d.data.isActive) :=
      (Option.some_inj.mp hl).symm
    intro dm hdm
    rw [hl3] at hdm
    rcases List.mem_filter.mp hdm with ⟨hmem, hpred⟩
    exact ⟨hmem, ((Bool.and_eq_true _ _).mp hpred).2⟩

/-- once no active DM for a request remains, the active-DM query of any user
contains no DM tied to that request. -/
theorem no_rid_dms_in_subscription (rid u : String) (s' : St)
    (hempty : activeDMsFor s' rid = []) :
    ∀ l, (getUserRequestDMs u s').1 = some l → ∀ dm ∈ l, dm.data.requestId ≠ rid := by
  intro l hl dm hdm heq
  obtain ⟨hmem, hact⟩ := getUserRequestDMs_mem_active u s' hl dm hdm
  have hin : dm ∈ activeDMsFor s' rid := by
    refine List.mem_filter.mpr ⟨hmem, ?_⟩
    simp [heq, hact]
  rw [hempty] at hin
  simp at hin

theorem acceptChatStep_pres {γ : Type u} (rq : ProjectRequest) {proj : St → γ}
    (hfa : ∀ s, proj { s with faults := s.faults.tail } = proj s)
    (hnow : ∀ s, proj { s with now := s.now + 1 } = proj s)
    (hni : ∀ s, proj { s with nextId := s.nextId + 1 } = proj s)
    (hch : ∀ s l, proj { s with groupChats := l } = proj s) :
    Preserves (acceptChatStep rq) proj := by
  unfold acceptChatStep
  apply Preserves.bindM (findOrCreateGroupChat_pres _ hfa hnow hni hch)
  intro gc
  cases gc with
  | some g =>
      apply Preserves.bindM (addUserToGroupChat_pres _ _ _ _ hfa hnow hch)
      intro success
      dsimp only
      split
      · exact Preserves.pureM _ _
      · exact Preserves.pureM _ _
  | none => exact Preserves.pureM _ _

theorem acceptChatStep_some (rq : ProjectRequest) : AlwaysSome (acceptChatStep rq) := by
  unfold acceptChatStep
  apply AlwaysSome.bindS (findOrCreateGroupChat_some _)
  intro gc
  cases gc with
  | some g =>
      apply AlwaysSome.bindS (addUserToGroupChat_some _ _ _ _)
      intro success
      dsimp only
      split
      · exact AlwaysSome.pureS _
      · exact AlwaysSome.pureS _
  | none => exact AlwaysSome.pureS _

/-- two stores with the same DM collection have the same active DMs. -/
theorem activeDMsFor_congr {s1 s2 : St} (rid : String)
    (h : s1.requestDMs = s2.requestDMs) : activeDMsFor s1 rid = activeDMsFor s2 rid := by
  unfold activeDMsFor
  rw [h]

/-- C6: DM lifecycle coupling.  For a fault-free store holding the request:
a fresh createRequestDM for request R marks R with hasDM = true; accepting
or declining R (with at most one active DM attached, as the invariant
guarantees) leaves no active DM for R; and afterwards the active-DM query of
any user contains no DM tied to R. -/
theorem C6_dm_lifecycle_coupling (rid rqId rqName rqEmail owId owName owEmail
    pjId pjName : String) (s : St) (h : s.faults = [])
    (hreq : (Doc.lookup s.requests rid).isSome) :
    ((activeDMsFor s rid).head? = none →
      (Doc.lookup (createRequestDM rid rqId rqName rqEmail owId owName owEmail
        pjId pjName s).2.requests rid).map ProjectRequest.hasDM = some (some true)) ∧
    ((activeDMsFor s rid).length ≤ 1 →
      activeDMsFor (acceptProjectRequest rid s).2 rid = [] ∧
      activeDMsFor (declineProjectRequest rid s).2 rid = [] ∧
      (∀ u l, (getUserRequestDMs u (acceptProjectRequest rid s).2).1 = some l →
        ∀ dm ∈ l, dm.data.requestId ≠ rid) ∧
      (∀ u l, (getUserRequestDMs u (declineProjectRequest rid s).2).1 = some l →
        ∀ dm ∈ l, dm.data.requestId ≠ rid)) := by
  constructor
  · intro hh
    rw [createRequestDM_nil_create rid rqId rqName rqEmail owId owName owEmail
      pjId pjName h hh hreq]
    dsimp only
    rw [Doc.lookup_updateD]
    obtain ⟨r0, hr0⟩ := Option.isSome_iff_exists.mp hreq
    rw [hr0]
    rfl
  · intro hdmle
    obtain ⟨rq, hrq⟩ := Option.isSome_iff_exists.mp hreq
    have hempty0 : (activeDMsFor s rid).head? = none → activeDMsFor s rid = [] := by
      intro hcl2
      cases hl2 : activeDMsFor s rid with
      | nil => rfl
      | cons a t => rw [hl2] at hcl2; simp at hcl2
    have hacc : activeDMsFor (acceptProjectRequest rid s).2 rid = [] := by
      unfold acceptProjectRequest
      rw [run_tryCatch, run_bind, getDocRequest_nil _ h, hrq]
      dsimp only
      rw [run_bind, run_tsNow]
      dsimp only
      rw [run_bind, updateDocRequest_nil rid _ (by exact h), if_pos (by exact hreq)]
      dsimp only
      rw [run_bind, closeRequestDM_nil rid (by exact h)]
      cases hcl : (activeDMsFor
          { s with
              requests := Doc.updateD s.requests rid
                (fun r => { r with status := ReqStatus.accepted, updatedAt := s.now }),
              now := s.now + 1 } rid).head? with
      | none =>
          dsimp only
          rcases hstep : acceptChatStep rq
            { s with
                requests := Doc.updateD s.requests rid
                  (fun r => { r with status := ReqStatus.accepted, updatedAt := s.now }),
                now := s.now + 1 } with ⟨r, s5⟩
          have hpres := @acceptChatStep_pres (List (Doc RequestDM)) rq St.requestDMs
            (fun _ => rfl) (fun _ => rfl) (fun _ => rfl) (fun _ _ => rfl)
            { s with
                requests := Doc.updateD s.requests rid
                  (fun r => { r with status := ReqStatus.accepted, updatedAt := s.now }),
                now := s.now + 1 }
          rw [hstep] at hpres
          dsimp only at hpres
          cases r with
          | some a =>
              dsimp only
              exact (activeDMsFor_congr rid hpres).trans (hempty0 hcl)
          | none =>
              dsimp only
              rw [run_pure]
              exact (activeDMsFor_congr rid hpres).trans (hempty0 hcl)
      | some d =>
          dsimp only
          rcases hstep : acceptChatStep rq
            { s with
                requests := Doc.updateD s.requests rid
                  (fun r => { r with status := ReqStatus.accepted, updatedAt := s.now }),
                requestDMs := Doc.updateD s.requestDMs d.id
                  (fun dm => { dm with isActive := false, updatedAt := s.now + 1 }),
                now := s.now + 1 + 1 } with ⟨r, s5⟩
          have hpres := @acceptChatStep_pres (List (Doc RequestDM)) rq St.requestDMs
            (fun _ => rfl) (fun _ => rfl) (fun _ => rfl) (fun _ _ => rfl)
            { s with
                requests := Doc.updateD s.requests rid
                  (fun r => { r with status := ReqStatus.accepted, updatedAt := s.now }),
                requestDMs := Doc.updateD s.requestDMs d.id
                  (fun dm => { dm with isActive := false, updatedAt := s.now + 1 }),
                now := s.now + 1 + 1 }
          rw [hstep] at hpres
          dsimp only at hpres
          have hl : activeDMsFor s rid = [d] := head?_length_le_one hcl hdmle
          have hclosed := @activeDMs_close_eq_nil s.requestDMs rid d (s.now + 1) hl
          cases r with
          | some a =>
              dsimp only
              unfold activeDMsFor
              rw [hpres]
              exact hclosed
          | none =>
              dsimp only
              rw [run_pure]
              unfold activeDMsFor
              rw [hpres]
              exact hclosed
    have hdec : activeDMsFor (declineProjectRequest rid s).2 rid = [] := by
      unfold declineProjectRequest
      rw [run_tryCatch, run_bind, run_tsNow]
      dsimp only
      rw [run_bind, updateDocRequest_nil rid _ (by exact h), if_pos (by exact hreq)]
      dsimp only
      rw [run_bind, closeRequestDM_nil rid (by exact h)]
      cases hcl : (activeDMsFor
          { s with
              requests := Doc.updateD s.requests rid
                (fun r => { r with status := ReqStatus.declined, updatedAt := s.now }),
              now := s.now + 1 } rid).head? with
      | none =>
          dsimp only
          rw [run_pure]
          exact hempty0 hcl
      | some d =>
          dsimp only
          rw [run_pure]
          have hl : activeDMsFor s rid = [d] := head?_length_le_one hcl hdmle
          exact @activeDMs_close_eq_nil s.requestDMs rid d (s.now + 1) hl
    refine ⟨hacc, hdec, ?_, ?_⟩
    · intro u l hl dm hdm
      exact no_rid_dms_in_subscription rid u _ hacc l hl dm hdm
    · intro u l hl dm hdm
      exact no_rid_dms_in_subscription rid u _ hdec l hl dm hdm

/-- C6 witness: in the store holding just the pending request r1 (and no DM),
a fresh createRequestDM marks r1 with hasDM = true, and accepting or declining
r1 leaves no active DM attached to it. -/
theorem C6_dm_lifecycle_coupling_witness :
    (Doc.lookup (createRequestDM "r1" "alice" "Alice" "alice@x.edu" "bob" "Bob"
        "bob@x.edu" "p1" "VR Study" c1s0).2.requests "r1").map
      ProjectRequest.hasDM = some (some true) ∧
    activeDMsFor (acceptProjectRequest "r1" c1s0).2 "r1" = [] ∧
    activeDMsFor (declineProjectRequest "r1" c1s0).2 "r1" = [] := by
  have hmain := C6_dm_lifecycle_coupling "r1" "alice" "Alice" "alice@x.edu"
    "bob" "Bob" "bob@x.edu" "p1" "VR Study" c1s0 (by decide) (by decide)
  exact ⟨hmain.1 (by decide), (hmain.2 (by decide)).1, (hmain.2 (by decide)).2.1⟩

/-! ### C2: error handling of acceptProjectRequest -/

theorem getDocRequest_cases (id : String) (s : St) :
    getDocRequest id s = (none, { s with faults := s.faults.tail }) ∨
    getDocRequest id s =
      (some (Doc.lookup s.requests id), { s with faults := s.faults.tail }) := by
  unfold getDocRequest
  rcases checkFault_cases s with hc | hc <;> rw [run_bind, hc]
  · left
    rfl
  · right
    rfl

theorem updateDocRequest_cases (id : String) (f : ProjectRequest → ProjectRequest) (s : St) :
    updateDocRequest id f s = (none, { s with faults := s.faults.tail }) ∨
    (updateDocRequest id f s = (some (),
        { s with requests := Doc.updateD s.requests id f, faults := s.faults.tail }) ∧
      (Doc.lookup s.requests id).isSome = true) := by
  unfold updateDocRequest
  rcases checkFault_cases s with hc | hc <;> rw [run_bind, hc]
  · left
    rfl
  · dsimp only
    rw [run_bind, run_get]
    dsimp only
    by_cases hl : (Doc.lookup s.requests id).isSome = true
    · right
      refine ⟨?_, hl⟩
      rw [if_pos hl, run_modify]
    · left
      rw [if_neg hl, run_throw]

/-- over every fault schedule, acceptProjectRequest either leaves the request
collection untouched and reports false, or has committed exactly the
status-accepted update (which no later step of the call reverts). -/
theorem acceptProjectRequest_requests_cases (rid : String) (s : St) :
    ((acceptProjectRequest rid s).2.requests = s.requests ∧
      (acceptProjectRequest rid s).1 = some false) ∨
    ((acceptProjectRequest rid s).2.requests = Doc.updateD s.requests rid
        (fun r => { r with status := ReqStatus.accepted, updatedAt := s.now }) ∧
      (Doc.lookup s.requests rid).isSome = true) := by
  unfold acceptProjectRequest
  rw [run_tryCatch, run_bind]
  rcases getDocRequest_cases rid s with hg | hg <;> rw [hg]
  · left
    exact ⟨rfl, rfl⟩
  · dsimp only
    cases hr : Doc.lookup s.requests rid with
    | none =>
        left
        exact ⟨rfl, rfl⟩
    | some rq =>
        dsimp only
        rw [run_bind, run_tsNow]
        dsimp only
        rw [run_bind]
        rcases updateDocRequest_cases rid
            (fun r => { r with status := ReqStatus.accepted, updatedAt := s.now })
            { s with now := s.now + 1, faults := s.faults.tail } with hu | hu
        · rw [hu]
          left
          exact ⟨rfl, rfl⟩
        · rw [hu.1]
          dsimp only
          rw [run_bind]
          rcases hcs : closeRequestDM rid
            { s with
                requests := Doc.updateD s.requests rid
                  (fun r => { r with status := ReqStatus.accepted, updatedAt := s.now }),
                now := s.now + 1,
                faults := s.faults.tail.tail } with ⟨cr, s4⟩
          have hcp := @closeRequestDM_pres (List (Doc ProjectRequest)) rid St.requests
            (fun _ => rfl) (fun _ => rfl) (fun _ _ => rfl)
            { s with
                requests := Doc.updateD s.requests rid
                  (fun r => { r with status := ReqStatus.accepted, updatedAt := s.now }),
                now := s.now + 1,
                faults := s.faults.tail.tail }
          have hcso := closeRequestDM_some rid
            { s with
                requests := Doc.updateD s.requests rid
                  (fun r => { r with status := ReqStatus.accepted, updatedAt := s.now }),
                now := s.now + 1,
                faults := s.faults.tail.tail }
          rw [hcs] at hcp hcso
          dsimp only at hcp hcso
          cases cr with
          | none => simp at hcso
          | some b =>
              dsimp only
              rcases hstep : acceptChatStep rq s4 with ⟨r, s5⟩
              have hap := @acceptChatStep_pres (List (Doc ProjectRequest)) rq St.requests
                (fun _ => rfl) (fun _ => rfl) (fun _ => rfl) (fun _ _ => rfl) s4
              have has := acceptChatStep_some rq s4
              rw [hstep] at hap has
              dsimp only at hap has
              cases r with
              | none => simp at has
              | some b2 =>
                  dsimp only
                  right
                  exact ⟨hap.trans hcp, rfl⟩

/-- the store for the C2 counterexample: pending request r1 for VR Study, the
VR Study group chat already present, and a fault schedule whose single
failure hits the updateDoc inside addUserToGroupChat — after the status
update has committed. -/
def c2s : St :=
  { baseSt with requests := [⟨"r1", reqA⟩],
                groupChats := [⟨"g1", vrChat⟩],
                faults := [false, false, false, false, true] }

/-- C2 counterexample: the claim's "returns success exactly when the status
update committed" fails — when the member-add step fails after the commit,
acceptProjectRequest returns false although the status is now accepted. -/
theorem C2_accept_result_commit_mismatch :
    (acceptProjectRequest "r1" c2s).1 = some false ∧
    (Doc.lookup (acceptProjectRequest "r1" c2s).2.requests "r1").map
      ProjectRequest.status = some ReqStatus.accepted := by
  decide

/-- C2 (amended): acceptProjectRequest on an absent request id under a
fault-free store returns false and leaves the store untouched; and under
every store and fault schedule the call either leaves the request collection
unchanged and returns false, or has committed the status-accepted update,
which no later chat step rolls back — but a chat-step failure can still make
the call return false after the commit, so success is not returned exactly
when the commit happened. -/
theorem C2_accept_error_handling (rid : String) (s : St) :
    (s.faults = [] → Doc.lookup s.requests rid = none →
      acceptProjectRequest rid s = (some false, s)) ∧
    (((acceptProjectRequest rid s).2.requests = s.requests ∧
        (acceptProjectRequest rid s).1 = some false) ∨
      (Doc.lookup (acceptProjectRequest rid s).2.requests rid).map
        ProjectRequest.status = some ReqStatus.accepted) := by
  constructor
  · intro h hnone
    unfold acceptProjectRequest
    rw [run_tryCatch, run_bind, getDocRequest_nil rid h, hnone]
    rfl
  · rcases acceptProjectRequest_requests_cases rid s with h1 | h2
    · exact Or.inl h1
    · right
      rw [h2.1, Doc.lookup_updateD]
      obtain ⟨r0, hr0⟩ := Option.isSome_iff_exists.mp h2.2
      rw [hr0]
      rfl

/-- C2 witness: the amended theorem applied to the empty store with an absent
id, and to the counterexample store where the commit wins the disjunction. -/
theorem C2_accept_error_handling_witness :
    acceptProjectRequest "missing" baseSt = (some false, baseSt) ∧
    (((acceptProjectRequest "r1" c2s).2.requests = c2s.requests ∧
        (acceptProjectRequest "r1" c2s).1 = some false) ∨
      (Doc.lookup (acceptProjectRequest "r1" c2s).2.requests "r1").map
        ProjectRequest.status = some ReqStatus.accepted) :=
  ⟨(C2_accept_error_handling "missing" baseSt).1 rfl rfl,
    (C2_accept_error_handling "r1" c2s).2⟩
